import Mathlib

/-!
Verification of the pimalaya/keyring repository: shallow embedding of the
sans-I/O keyring flows, the Secret Service D-Bus driver logic, the DH /
HKDF / AES-CBC crypto stack, and proofs of the frozen claims about them.

Machine integers (u8, u32, BigUint) are modelled as Nat with explicit
reductions where the source wraps; fallible Rust code returns Except-like
sums; stateful methods are modelled by explicit state passing.
-/

namespace Keyring

/-! ## Big-endian byte conversions

Models num-bigint BigUint.from_bytes_be and BigUint.to_bytes_be, used
by the DH key agreement in src/secret_service_blocking/crypto/openssl.rs. -/

/-- Model of BigUint.from_bytes_be: fold big-endian bytes into a Nat. -/
def fromBytesBE (bs : List Nat) : Nat :=
  bs.foldl (fun acc b => acc * 256 + b) 0

/-- Helper for toBytesBE: big-endian digits of a positive Nat (empty for 0). -/
def natDigitsBE (n : Nat) : List Nat :=
  if n = 0 then [] else natDigitsBE (n / 256) ++ [n % 256]
decreasing_by exact Nat.div_lt_self (Nat.pos_of_ne_zero (by assumption)) (by omega)

/-- Model of BigUint.to_bytes_be: minimal big-endian bytes; num-bigint
returns the single byte 0 for the value zero. -/
def toBytesBE (n : Nat) : List Nat :=
  if n = 0 then [0] else natDigitsBE n

theorem natDigitsBE_zero : natDigitsBE 0 = [] := by
  unfold natDigitsBE; simp

theorem natDigitsBE_pos (n : Nat) (h : n ≠ 0) :
    natDigitsBE n = natDigitsBE (n / 256) ++ [n % 256] := by
  conv_lhs => unfold natDigitsBE
  simp [h]

theorem fromBytesBE_append_digit (bs : List Nat) (b : Nat) :
    fromBytesBE (bs ++ [b]) = fromBytesBE bs * 256 + b := by
  simp [fromBytesBE, List.foldl_append]

/-- fromBytesBE inverts the digit expansion. -/
theorem fromBytesBE_natDigitsBE (n : Nat) : fromBytesBE (natDigitsBE n) = n := by
  induction n using Nat.strong_induction_on with
  | _ n ih =>
    by_cases h : n = 0
    · subst h; simp [natDigitsBE_zero, fromBytesBE]
    · rw [natDigitsBE_pos n h, fromBytesBE_append_digit,
        ih (n / 256) (Nat.div_lt_self (Nat.pos_of_ne_zero h) (by omega))]
      omega

/-- fromBytesBE inverts toBytesBE (round trip used for DH symmetry). -/
theorem fromBytesBE_toBytesBE (n : Nat) : fromBytesBE (toBytesBE n) = n := by
  unfold toBytesBE
  by_cases h : n = 0
  · simp [h, fromBytesBE]
  · simp [h, fromBytesBE_natDigitsBE]

/-- Length bound for the digit expansion: n < 256 ^ k gives at most k digits. -/
theorem natDigitsBE_length_le (k : Nat) :
    ∀ n : Nat, n < 256 ^ k → (natDigitsBE n).length ≤ k := by
  induction k with
  | zero =>
    intro n hn
    have : n = 0 := by simpa using hn
    simp [this, natDigitsBE_zero]
  | succ k ih =>
    intro n hn
    by_cases h : n = 0
    · simp [h, natDigitsBE_zero]
    · rw [natDigitsBE_pos n h]
      have hdiv : n / 256 < 256 ^ k := by
        rw [Nat.div_lt_iff_lt_mul (by omega)]
        calc n < 256 ^ (k + 1) := hn
        _ = 256 ^ k * 256 := by ring
      have := ih (n / 256) hdiv
      simp only [List.length_append, List.length_cons, List.length_nil]
      omega

/-- Length bound for toBytesBE, covering num-bigint's zero case. -/
theorem toBytesBE_length_le (k n : Nat) (hk : 1 ≤ k) (hn : n < 256 ^ k) :
    (toBytesBE n).length ≤ k := by
  unfold toBytesBE
  by_cases h : n = 0
  · simpa [h] using hk
  · simpa [h] using natDigitsBE_length_le k n hn

/-! ## Square-and-multiply modular exponentiation

Models pow_base_exp_mod from src/secret_service_blocking/crypto/openssl.rs:
while exp not zero: if exp odd, result := result * base % m;
exp := exp >> 1; base := base * base % m. -/

/-- The loop of pow_base_exp_mod with its three mutable locals as arguments. -/
def powLoop (base exp result m : Nat) : Nat :=
  if exp = 0 then result
  else
    powLoop (base * base % m) (exp / 2)
      (if exp % 2 = 1 then result * base % m else result) m
decreasing_by exact Nat.div_lt_self (Nat.pos_of_ne_zero (by assumption)) (by omega)

/-- Model of pow_base_exp_mod: result starts at One::one(). -/
def pow_base_exp_mod (base exp m : Nat) : Nat :=
  powLoop base exp 1 m

theorem powLoop_zero (base result m : Nat) : powLoop base 0 result m = result := by
  unfold powLoop; simp

theorem powLoop_succ (base exp result m : Nat) (h : exp ≠ 0) :
    powLoop base exp result m =
      powLoop (base * base % m) (exp / 2)
        (if exp % 2 = 1 then result * base % m else result) m := by
  conv_lhs => unfold powLoop
  simp [h]

/-- Loop invariant: for a positive exponent the loop computes
result * base ^ exp modulo m. -/
theorem powLoop_spec (m : Nat) :
    ∀ exp base result : Nat, exp ≠ 0 →
      powLoop base exp result m = result * base ^ exp % m := by
  intro e
  induction e using Nat.strong_induction_on with
  | _ e ih =>
    intro base result he
    rw [powLoop_succ base e result m he]
    have hsplit : 2 * (e / 2) + e % 2 = e := by omega
    by_cases h2 : e / 2 = 0
    · -- the last iteration: e = 1
      have he1 : e = 1 := by omega
      subst he1
      rw [powLoop_zero]
      simp
    · have hlt : e / 2 < e := Nat.div_lt_self (Nat.pos_of_ne_zero he) (by omega)
      rw [ih (e / 2) hlt (base * base % m) _ h2]
      have hpow : (base * base) ^ (e / 2) = base ^ (2 * (e / 2)) := by
        rw [Nat.pow_mul, Nat.pow_two]
      rcases Nat.mod_two_eq_zero_or_one e with hpar | hpar
      · simp only [hpar]
        norm_num
        have : result * (base * base % m) ^ (e / 2) ≡ result * base ^ e [MOD m] := by
          refine Nat.ModEq.mul_left result ?_
          calc (base * base % m) ^ (e / 2)
              ≡ (base * base) ^ (e / 2) [MOD m] := (Nat.mod_modEq _ m).pow _
            _ = base ^ e := by rw [hpow]; congr 1; omega
        exact this
      · simp only [hpar]
        norm_num
        have : result * base * (base * base % m) ^ (e / 2)
            ≡ result * base ^ e [MOD m] := by
          calc result * base * (base * base % m) ^ (e / 2)
              ≡ result * base * (base * base) ^ (e / 2) [MOD m] :=
                Nat.ModEq.mul_left _ ((Nat.mod_modEq _ m).pow _)
            _ = result * (base ^ (2 * (e / 2)) * base ^ 1) := by
                rw [hpow]; ring
            _ = result * base ^ e := by
                rw [← Nat.pow_add]; congr 2; omega
        exact this

/-- For positive exponents the loop result is a remainder, hence below m. -/
theorem powLoop_lt (m : Nat) (hm : 1 ≤ m) (exp base result : Nat) (he : exp ≠ 0) :
    powLoop base exp result m < m := by
  rw [powLoop_spec m exp base result he]
  exact Nat.mod_lt _ (by omega)

theorem pow_base_exp_mod_spec (base exp m : Nat) (hm : 2 ≤ m) :
    pow_base_exp_mod base exp m = base ^ exp % m := by
  unfold pow_base_exp_mod
  by_cases he : exp = 0
  · subst he
    rw [powLoop_zero]
    have : base ^ 0 = 1 := Nat.pow_zero base
    rw [this, Nat.mod_eq_of_lt (by omega)]
  · rw [powLoop_spec m exp base 1 he, Nat.one_mul]

/-! ## DH group constants (RFC 2409 Second Oakley Group)

From src/secret_service_blocking/crypto/openssl.rs: DH_GENERATOR = 2 and
DH_PRIME built from the 128 fixed big-endian bytes. -/

/-- The 128 big-endian bytes of the RFC 2409 Group 2 prime, as listed in
the source. -/
def DH_PRIME_BYTES : List Nat :=
  [0xFF, 0xFF, 0xFF, 0xFF, 0xFF, 0xFF, 0xFF, 0xFF, 0xC9, 0x0F, 0xDA, 0xA2, 0x21, 0x68, 0xC2,
   0x34, 0xC4, 0xC6, 0x62, 0x8B, 0x80, 0xDC, 0x1C, 0xD1, 0x29, 0x02, 0x4E, 0x08, 0x8A, 0x67,
   0xCC, 0x74, 0x02, 0x0B, 0xBE, 0xA6, 0x3B, 0x13, 0x9B, 0x22, 0x51, 0x4A, 0x08, 0x79, 0x8E,
   0x34, 0x04, 0xDD, 0xEF, 0x95, 0x19, 0xB3, 0xCD, 0x3A, 0x43, 0x1B, 0x30, 0x2B, 0x0A, 0x6D,
   0xF2, 0x5F, 0x14, 0x37, 0x4F, 0xE1, 0x35, 0x6D, 0x6D, 0x51, 0xC2, 0x45, 0xE4, 0x85, 0xB5,
   0x76, 0x62, 0x5E, 0x7E, 0xC6, 0xF4, 0x4C, 0x42, 0xE9, 0xA6, 0x37, 0xED, 0x6B, 0x0B, 0xFF,
   0x5C, 0xB6, 0xF4, 0x06, 0xB7, 0xED, 0xEE, 0x38, 0x6B, 0xFB, 0x5A, 0x89, 0x9F, 0xA5, 0xAE,
   0x9F, 0x24, 0x11, 0x7C, 0x4B, 0x1F, 0xE6, 0x49, 0x28, 0x66, 0x51, 0xEC, 0xE6, 0x53, 0x81,
   0xFF, 0xFF, 0xFF, 0xFF, 0xFF, 0xFF, 0xFF, 0xFF]

/-- DH_PRIME = BigUint.from_bytes_be(DH_PRIME_BYTES). -/
def DH_PRIME : Nat := fromBytesBE DH_PRIME_BYTES

/-- DH_GENERATOR = 2. -/
def DH_GENERATOR : Nat := 2

set_option maxRecDepth 2048 in
theorem DH_PRIME_ge_two : 2 ≤ DH_PRIME := by decide

set_option maxRecDepth 2048 in
theorem DH_PRIME_lt : DH_PRIME < 256 ^ 128 := by decide

/-! ## SHA-256, HMAC-SHA256 and HKDF-SHA256

Model of the external crypto primitives used by the repository
(openssl HKDF with SHA-256, RustCrypto hkdf + sha2), implemented
concretely per FIPS 180-4 and RFCs 2104/5869. Words are Nat reduced
mod 2^32. -/

/-- 2^32, the word modulus of SHA-256. -/
def M32 : Nat := 4294967296

/-- Rotate a 32-bit word right by n positions. -/
def rotr32 (n x : Nat) : Nat := ((x >>> n) ||| (x <<< (32 - n))) % M32

/-- SHA-256 round constants. -/
def shaK : List Nat :=
  [1116352408, 1899447441, 3049323471, 3921009573, 961987163, 1508970993, 2453635748, 2870763221,
   3624381080, 310598401, 607225278, 1426881987, 1925078388, 2162078206, 2614888103, 3248222580,
   3835390401, 4022224774, 264347078, 604807628, 770255983, 1249150122, 1555081692, 1996064986,
   2554220882, 2821834349, 2952996808, 3210313671, 3336571891, 3584528711, 113926993, 338241895,
   666307205, 773529912, 1294757372, 1396182291, 1695183700, 1986661051, 2177026350, 2456956037,
   2730485921, 2820302411, 3259730800, 3345764771, 3516065817, 3600352804, 4094571909, 275423344,
   430227734, 506948616, 659060556, 883997877, 958139571, 1322822218, 1537002063, 1747873779,
   1955562222, 2024104815, 2227730452, 2361852424, 2428436474, 2756734187, 3204031479, 3329325298]

/-- The eight-word SHA-256 hash state. -/
structure Sha256St where
  a : Nat
  b : Nat
  c : Nat
  d : Nat
  e : Nat
  f : Nat
  g : Nat
  h : Nat

/-- Initial SHA-256 hash value. -/
def shaInit : Sha256St :=
  ⟨1779033703, 3144134277, 1013904242, 2773480762, 1359893119, 2600822924, 528734635, 1541459225⟩

/-- Group a byte list into big-endian 32-bit words, four bytes at a time. -/
def bytesToWords : List Nat → List Nat
  | b0 :: b1 :: b2 :: b3 :: rest =>
      (b0 * 16777216 + b1 * 65536 + b2 * 256 + b3) :: bytesToWords rest
  | _ => []

/-- Split a word list into chunks of 16 words (one 512-bit block each). -/
def chunk16 (l : List Nat) : List (List Nat) :=
  if l.isEmpty then []
  else l.take 16 :: chunk16 (l.drop 16)
termination_by l.length
decreasing_by
  rename_i h
  rw [List.isEmpty_iff] at h
  have : l.length ≠ 0 := fun hl => h (List.eq_nil_of_length_eq_zero hl)
  simp only [List.length_drop]
  omega

/-- One extension step of the SHA-256 message schedule, reading from the
back of the accumulated word list. -/
def schedNext (acc : List Nat) : Nat :=
  let w (k : Nat) : Nat := acc.getD (acc.length - k) 0
  let s0 := rotr32 7 (w 15) ^^^ rotr32 18 (w 15) ^^^ (w 15 >>> 3)
  let s1 := rotr32 17 (w 2) ^^^ rotr32 19 (w 2) ^^^ (w 2 >>> 10)
  (w 16 + s0 + w 7 + s1) % M32

/-- Extend the 16 block words to the 64 schedule words. -/
def schedExtend (acc : List Nat) : Nat → List Nat
  | 0 => acc
  | n + 1 => schedExtend (acc ++ [schedNext acc]) n

/-- One SHA-256 compression round. -/
def shaRound (st : Sha256St) (k w : Nat) : Sha256St :=
  let s1 := rotr32 6 st.e ^^^ rotr32 11 st.e ^^^ rotr32 25 st.e
  let ch := (st.e &&& st.f) ^^^ ((M32 - 1 - st.e % M32) &&& st.g)
  let t1 := (st.h + s1 + ch + k + w) % M32
  let s0 := rotr32 2 st.a ^^^ rotr32 13 st.a ^^^ rotr32 22 st.a
  let mj := (st.a &&& st.b) ^^^ (st.a &&& st.c) ^^^ (st.b &&& st.c)
  let t2 := (s0 + mj) % M32
  ⟨(t1 + t2) % M32, st.a, st.b, st.c, (st.d + t1) % M32, st.e, st.f, st.g⟩

/-- Compress one 512-bit block into the hash state. -/
def shaCompress (st : Sha256St) (block : List Nat) : Sha256St :=
  let ws := schedExtend block 48
  let fin := (shaK.zip ws).foldl (fun s kw => shaRound s kw.1 kw.2) st
  ⟨(st.a + fin.a) % M32, (st.b + fin.b) % M32, (st.c + fin.c) % M32, (st.d + fin.d) % M32,
   (st.e + fin.e) % M32, (st.f + fin.f) % M32, (st.g + fin.g) % M32, (st.h + fin.h) % M32⟩

/-- The big-endian bytes of a 32-bit word. -/
def wordBytes (x : Nat) : List Nat :=
  [x / 16777216 % 256, x / 65536 % 256, x / 256 % 256, x % 256]

/-- Serialise the hash state to the 32 digest bytes (explicit list, so the
length is definitional). -/
def digestBytes (st : Sha256St) : List Nat :=
  [st.a / 16777216 % 256, st.a / 65536 % 256, st.a / 256 % 256, st.a % 256,
   st.b / 16777216 % 256, st.b / 65536 % 256, st.b / 256 % 256, st.b % 256,
   st.c / 16777216 % 256, st.c / 65536 % 256, st.c / 256 % 256, st.c % 256,
   st.d / 16777216 % 256, st.d / 65536 % 256, st.d / 256 % 256, st.d % 256,
   st.e / 16777216 % 256, st.e / 65536 % 256, st.e / 256 % 256, st.e % 256,
   st.f / 16777216 % 256, st.f / 65536 % 256, st.f / 256 % 256, st.f % 256,
   st.g / 16777216 % 256, st.g / 65536 % 256, st.g / 256 % 256, st.g % 256,
   st.h / 16777216 % 256, st.h / 65536 % 256, st.h / 256 % 256, st.h % 256]

/-- SHA-256 padding: append 0x80, zeros to 56 mod 64, and the 64-bit
big-endian bit length. -/
def shaPad (msg : List Nat) : List Nat :=
  let l := msg.length
  let zeros := (64 - (l + 9) % 64) % 64
  let bitLen := 8 * l % (2 ^ 64)
  msg ++ [0x80] ++ List.replicate zeros 0 ++
    [bitLen / 2 ^ 56 % 256, bitLen / 2 ^ 48 % 256, bitLen / 2 ^ 40 % 256, bitLen / 2 ^ 32 % 256,
     bitLen / 2 ^ 24 % 256, bitLen / 2 ^ 16 % 256, bitLen / 2 ^ 8 % 256, bitLen % 256]

/-- SHA-256 of a byte list, as its 32 digest bytes. -/
def sha256 (msg : List Nat) : List Nat :=
  digestBytes ((chunk16 (bytesToWords (shaPad msg))).foldl shaCompress shaInit)

theorem sha256_length (msg : List Nat) : (sha256 msg).length = 32 := rfl

/-- HMAC-SHA256 per RFC 2104 (block size 64). -/
def hmacSha256 (key msg : List Nat) : List Nat :=
  let k0 := if 64 < key.length then sha256 key else key
  let kp := k0 ++ List.replicate (64 - k0.length) 0
  sha256 ((kp.map (fun b => b ^^^ 0x5C)) ++ sha256 ((kp.map (fun b => b ^^^ 0x36)) ++ msg))

theorem hmacSha256_length (key msg : List Nat) : (hmacSha256 key msg).length = 32 :=
  sha256_length _

/-- HKDF-Expand block stream: T(i) = HMAC(prk, T(i-1) || info || [i]). -/
def hkdfExpandGo (prk info tPrev : List Nat) (i : Nat) : Nat → List Nat
  | 0 => []
  | n + 1 =>
      let t := hmacSha256 prk (tPrev ++ info ++ [i])
      t ++ hkdfExpandGo prk info t (i + 1) n

/-- HKDF-SHA256 per RFC 5869; an absent salt behaves as the empty salt
(HMAC zero-pads the key to the block size either way). -/
def hkdfSha256 (salt ikm info : List Nat) (okmLen : Nat) : List Nat :=
  (hkdfExpandGo (hmacSha256 salt ikm) info [] 1 ((okmLen + 31) / 32)).take okmLen

theorem hkdfExpandGo_length (prk info : List Nat) :
    ∀ n tPrev i, (hkdfExpandGo prk info tPrev i n).length = 32 * n := by
  intro n
  induction n with
  | zero => intro tPrev i; rfl
  | succ n ih =>
    intro tPrev i
    simp only [hkdfExpandGo, List.length_append, hmacSha256_length, ih]
    ring

theorem hkdfSha256_length (salt ikm info : List Nat) (okmLen : Nat) :
    (hkdfSha256 salt ikm info okmLen).length = okmLen := by
  unfold hkdfSha256
  rw [List.length_take, hkdfExpandGo_length]
  omega

/-! ## DH shared key derivation

Models Keypair and Keypair::derive_shared from
src/secret_service_blocking/crypto/openssl.rs. -/

/-- The public key computed by Keypair::generate for a given private
exponent: pow_base_exp_mod(DH_GENERATOR, priv, DH_PRIME). -/
def dhPublicKey (priv : Nat) : Nat :=
  pow_base_exp_mod DH_GENERATOR priv DH_PRIME

/-- The HKDF input keying material built by derive_shared: the shared
secret's big-endian bytes, left-zero-padded with vec![0; 128 - len]. -/
def dhIkm (priv : Nat) (server_public_key_bytes : List Nat) : List Nat :=
  let server_public_key := fromBytesBE server_public_key_bytes
  let common_secret := pow_base_exp_mod server_public_key priv DH_PRIME
  let common_secret_bytes := toBytesBE common_secret
  List.replicate (128 - common_secret_bytes.length) 0 ++ common_secret_bytes

/-- Model of Keypair::derive_shared: HKDF-SHA256 with no salt, empty info
and a 16-byte output keying material. -/
def derive_shared (priv : Nat) (server_public_key_bytes : List Nat) : List Nat :=
  hkdfSha256 [] (dhIkm priv server_public_key_bytes) [] 16

/-- The shared secret is always below the prime. -/
theorem common_secret_lt (base priv : Nat) :
    pow_base_exp_mod base priv DH_PRIME < DH_PRIME := by
  unfold pow_base_exp_mod
  by_cases h : priv = 0
  · subst h; rw [powLoop_zero]; exact Nat.lt_of_lt_of_le (by norm_num) DH_PRIME_ge_two
  · exact powLoop_lt DH_PRIME (by have := DH_PRIME_ge_two; omega) priv base 1 h

/-- The padded IKM is always exactly 128 bytes. -/
theorem dhIkm_length (priv : Nat) (pk : List Nat) : (dhIkm priv pk).length = 128 := by
  unfold dhIkm
  have hlt : pow_base_exp_mod (fromBytesBE pk) priv DH_PRIME < 256 ^ 128 :=
    Nat.lt_trans (common_secret_lt _ _) DH_PRIME_lt
  have hlen := toBytesBE_length_le 128 _ (by omega) hlt
  simp only [List.length_append, List.length_replicate]
  omega

/-- C10: the square-and-multiply pow_base_exp_mod agrees with reference
modular exponentiation: for every base, exponent and modulus m at least 2,
pow_base_exp_mod b e m = b ^ e % m (so in particular the result is below
m); for m = 1 and e = 0 it returns 1 rather than 0. -/
theorem claim_C10_pow_base_exp_mod_refines (base exp m : Nat) :
    (2 ≤ m → pow_base_exp_mod base exp m = base ^ exp % m ∧
      pow_base_exp_mod base exp m < m) ∧
    pow_base_exp_mod base 0 1 = 1 := by
  constructor
  · intro hm
    refine ⟨pow_base_exp_mod_spec base exp m hm, ?_⟩
    rw [pow_base_exp_mod_spec base exp m hm]
    exact Nat.mod_lt _ (by omega)
  · unfold pow_base_exp_mod
    exact powLoop_zero base 1 1

/-- Witness for C10 at base 3, exponent 5, modulus 7. -/
theorem claim_C10_witness :
    pow_base_exp_mod 3 5 7 = 3 ^ 5 % 7 ∧ pow_base_exp_mod 3 5 7 < 7 :=
  (claim_C10_pow_base_exp_mod_refines 3 5 7).1 (by norm_num)

/-- C5: derive_shared computes the shared secret by modular
exponentiation, left-zero-pads its big-endian bytes to exactly 128 bytes
(for every peer key and private exponent), feeds those bytes as the IKM
of HKDF-SHA256 with empty salt and empty info, and returns the 16-byte
output keying material. -/
theorem claim_C5_derive_shared_ikm (pk : List Nat) (priv : Nat) :
    (dhIkm priv pk).length = 128 ∧
    dhIkm priv pk =
      List.replicate
        (128 - (toBytesBE (pow_base_exp_mod (fromBytesBE pk) priv DH_PRIME)).length) 0 ++
      toBytesBE (pow_base_exp_mod (fromBytesBE pk) priv DH_PRIME) ∧
    derive_shared priv pk = hkdfSha256 [] (dhIkm priv pk) [] 16 ∧
    (derive_shared priv pk).length = 16 :=
  ⟨dhIkm_length priv pk, rfl, rfl, hkdfSha256_length _ _ _ _⟩

/-- C6: DH key agreement is symmetric: for any two generated keypairs,
each side's derive_shared over the other's public key yields the same
16-byte AES key. -/
theorem claim_C6_derive_shared_symm (a b : Nat) :
    derive_shared a (toBytesBE (dhPublicKey b)) =
    derive_shared b (toBytesBE (dhPublicKey a)) := by
  have key : pow_base_exp_mod (dhPublicKey b) a DH_PRIME =
      pow_base_exp_mod (dhPublicKey a) b DH_PRIME := by
    unfold dhPublicKey DH_GENERATOR
    rw [pow_base_exp_mod_spec _ _ _ DH_PRIME_ge_two,
      pow_base_exp_mod_spec _ _ _ DH_PRIME_ge_two,
      pow_base_exp_mod_spec _ _ _ DH_PRIME_ge_two,
      pow_base_exp_mod_spec _ _ _ DH_PRIME_ge_two,
      ← Nat.pow_mod, ← Nat.pow_mod, ← Nat.pow_mul, ← Nat.pow_mul, Nat.mul_comm]
  simp only [derive_shared, dhIkm, fromBytesBE_toBytesBE, key]

/-! ## Keyring entries (src/entry.rs) -/

/-- The (service, name) pair identifying one keyring credential. -/
structure Entry where
  service : String
  name : String
deriving DecidableEq, Repr

/-! ## Capability-style flows (src/flows/*.rs, src/state.rs)

In this snapshot the I/O request enum has the three bare variants matched
by src/handlers/std.rs. -/

namespace Flows

/-- The I/O request enum of the capability-style snapshot
(handlers/std.rs matches the bare Read / Write / Delete variants). -/
inductive Io where
  | Read
  | Write
  | Delete
deriving DecidableEq, Repr

/-- The per-operation I/O state of src/state.rs. -/
structure State where
  entry : Entry
  secret : Option String
  done : Option Bool
deriving DecidableEq, Repr

/-- State::new. -/
def State.new (entry : Entry) : State :=
  ⟨entry, none, none⟩

/-- State::set_secret: stores the secret and also marks done. -/
def State.set_secret (st : State) (secret : String) : State :=
  { st with secret := some secret, done := some true }

/-- State::take_secret: Option::take on the secret. -/
def State.take_secret (st : State) : Option String × State :=
  (st.secret, { st with secret := none })

/-- State::done. -/
def State.mark_done (st : State) : State :=
  { st with done := some true }

/-- The capability-style Read flow (src/flows/read.rs). -/
structure Read where
  state : State
deriving DecidableEq, Repr

def Read.new (entry : Entry) : Read :=
  ⟨State.new entry⟩

/-- Read::next: take the secret; if present the flow is done, otherwise
it emits the Read request. -/
def Read.next (r : Read) : Except Io String × Read :=
  let (sec, st) := r.state.take_secret
  match sec with
  | some s => (.ok s, ⟨st⟩)
  | none => (.error Io.Read, ⟨st⟩)

/-- The capability-style Write flow (src/flows/write.rs). -/
structure Write where
  state : State
deriving DecidableEq, Repr

/-- Write::new stores the secret via State::set_secret. -/
def Write.new (entry : Entry) (secret : String) : Write :=
  ⟨(State.new entry).set_secret secret⟩

/-- Write::next: Option::take the done flag; Some(true) means done,
anything else emits the Write request. -/
def Write.next (w : Write) : Except Io Unit × Write :=
  let d := w.state.done
  let st := { w.state with done := none }
  match d with
  | some true => (.ok (), ⟨st⟩)
  | _ => (.error Io.Write, ⟨st⟩)

/-- The capability-style Delete flow (src/flows/delete.rs). -/
structure Delete where
  state : State
deriving DecidableEq, Repr

def Delete.new (entry : Entry) : Delete :=
  ⟨State.new entry⟩

/-- Delete::next: same shape as Write::next with the Delete request. -/
def Delete.next (d : Delete) : Except Io Unit × Delete :=
  let dn := d.state.done
  let st := { d.state with done := none }
  match dn with
  | some true => (.ok (), ⟨st⟩)
  | _ => (.error Io.Delete, ⟨st⟩)

end Flows

/-! ## Resumable-style coroutines (src/coroutines/*.rs, src/io.rs) -/

namespace Coroutines

/-- The I/O request enum of src/io.rs, with completed-or-requested
payloads and the two protocol-misuse variants. -/
inductive Io where
  | UnavailableInput
  | UnexpectedInput (inner : Io)
  | Read (res : Except Entry String)
  | Write (res : Except (Entry × String) Unit)
  | Delete (res : Except Entry Unit)
deriving Repr

/-- The Read coroutine (src/coroutines/read.rs): holds the not-yet-emitted
entry input. -/
structure Read where
  input : Option Entry
deriving DecidableEq, Repr

def Read.new (input : Entry) : Read :=
  ⟨some input⟩

/-- Read::resume. -/
def Read.resume (r : Read) (input : Option Io) : Except Io String × Read :=
  match input with
  | none =>
    match r.input with
    | none => (.error Io.UnavailableInput, r)
    | some entry => (.error (Io.Read (.error entry)), ⟨none⟩)
  | some io =>
    match io with
    | Io.Read (.ok secret) => (.ok secret, r)
    | other => (.error (Io.UnexpectedInput other), r)

/-- The Write coroutine (src/coroutines/write.rs). -/
structure Write where
  input : Option (Entry × String)
deriving DecidableEq, Repr

def Write.new (entry : Entry) (secret : String) : Write :=
  ⟨some (entry, secret)⟩

/-- Write::resume. -/
def Write.resume (w : Write) (input : Option Io) : Except Io Unit × Write :=
  match input with
  | none =>
    match w.input with
    | none => (.error Io.UnavailableInput, w)
    | some pair => (.error (Io.Write (.error pair)), ⟨none⟩)
  | some io =>
    match io with
    | Io.Write (.ok ()) => (.ok (), w)
    | other => (.error (Io.UnexpectedInput other), w)

/-- The Delete coroutine (src/coroutines/delete.rs). -/
structure Delete where
  input : Option Entry
deriving DecidableEq, Repr

def Delete.new (input : Entry) : Delete :=
  ⟨some input⟩

/-- Delete::resume. -/
def Delete.resume (d : Delete) (input : Option Io) : Except Io Unit × Delete :=
  match input with
  | none =>
    match d.input with
    | none => (.error Io.UnavailableInput, d)
    | some entry => (.error (Io.Delete (.error entry)), ⟨none⟩)
  | some io =>
    match io with
    | Io.Delete (.ok ()) => (.ok (), d)
    | other => (.error (Io.UnexpectedInput other), d)

/-- Whether an input is the completed-read payload accepted by
Read::resume. -/
def Io.isReadOk : Io → Bool
  | Io.Read (.ok _) => true
  | _ => false

end Coroutines

/-! ## Iterator-style Secret Service flows
(src/secret_service/dbus_blocking/flow.rs) -/

namespace DbusFlow

/-- The bare entry I/O requests of that snapshot's crate root. -/
inductive EntryIo where
  | Read
  | Write
  | Delete
deriving DecidableEq, Repr

/-- The crypto I/O requests (secret_service/dbus_blocking/crypto). -/
inductive CryptoIo where
  | Encrypt
  | Decrypt
deriving DecidableEq, Repr

/-- The Secret Service flow I/O: an entry step or a crypto step. -/
inductive Io where
  | Entry (io : EntryIo)
  | Crypto (io : CryptoIo)
deriving DecidableEq, Repr

inductive ReadEntryState where
  | Read
  | Decrypt
deriving DecidableEq, Repr

/-- ReadEntryFlow: iterator state plus session path, secret and salt. -/
structure ReadEntryFlow where
  state : Option ReadEntryState
  session_path : String
  secret : Option (List Nat)
  salt : Option (List Nat)
deriving DecidableEq, Repr

def ReadEntryFlow.new (session_path : String) : ReadEntryFlow :=
  ⟨some ReadEntryState.Read, session_path, none, none⟩

/-- Iterator::next for ReadEntryFlow: state.take()?, emitting
Entry(Read) then Crypto(Decrypt). -/
def ReadEntryFlow.next (f : ReadEntryFlow) : Option Io × ReadEntryFlow :=
  match f.state with
  | none => (none, { f with state := none })
  | some ReadEntryState.Read =>
      (some (Io.Entry EntryIo.Read), { f with state := some ReadEntryState.Decrypt })
  | some ReadEntryState.Decrypt =>
      (some (Io.Crypto CryptoIo.Decrypt), { f with state := none })

inductive WriteEntryState where
  | Encrypt
  | Write
deriving DecidableEq, Repr

/-- WriteEntryFlow: starts with the plaintext secret in place. -/
structure WriteEntryFlow where
  state : Option WriteEntryState
  session_path : String
  secret : Option (List Nat)
  salt : Option (List Nat)
deriving DecidableEq, Repr

def WriteEntryFlow.new (session_path : String) (secret : List Nat) : WriteEntryFlow :=
  ⟨some WriteEntryState.Encrypt, session_path, some secret, none⟩

/-- Iterator::next for WriteEntryFlow: Crypto(Encrypt) then Entry(Write). -/
def WriteEntryFlow.next (f : WriteEntryFlow) : Option Io × WriteEntryFlow :=
  match f.state with
  | none => (none, { f with state := none })
  | some WriteEntryState.Encrypt =>
      (some (Io.Crypto CryptoIo.Encrypt), { f with state := some WriteEntryState.Write })
  | some WriteEntryState.Write =>
      (some (Io.Entry EntryIo.Write), { f with state := none })

/-- Drive a ReadEntryFlow collecting its emitted steps, with enough fuel. -/
def runRead (f : ReadEntryFlow) : Nat → List Io
  | 0 => []
  | n + 1 =>
    match f.next with
    | (none, _) => []
    | (some io, f') => io :: runRead f' n

/-- Drive a WriteEntryFlow collecting its emitted steps. -/
def runWrite (f : WriteEntryFlow) : Nat → List Io
  | 0 => []
  | n + 1 =>
    match f.next with
    | (none, _) => []
    | (some io, f') => io :: runWrite f' n

theorem runRead_done (f : ReadEntryFlow) (h : f.state = none) :
    ∀ n, runRead f n = [] := by
  intro n
  cases n with
  | zero => rfl
  | succ n => simp [runRead, ReadEntryFlow.next, h]

theorem runWrite_done (f : WriteEntryFlow) (h : f.state = none) :
    ∀ n, runWrite f n = [] := by
  intro n
  cases n with
  | zero => rfl
  | succ n => simp [runWrite, WriteEntryFlow.next, h]

end DbusFlow

/-! ## Session algorithm (src/secret_service/crypto/algorithm.rs) -/

/-- The session negotiation algorithm. -/
inductive Algorithm where
  | Plain
  | Dh
deriving DecidableEq, Repr

def ALGORITHM_PLAIN : String := "plain"

def ALGORITHM_DH : String := "dh-ietf1024-sha256-aes128-cbc-pkcs7"

/-- Algorithm::as_ref. -/
def Algorithm.as_ref : Algorithm → String
  | Algorithm.Plain => ALGORITHM_PLAIN
  | Algorithm.Dh => ALGORITHM_DH

/-! ## Algorithm-aware Secret Service flows

Modelled from the spec: the secret_service::flow module whose flows take
the Algorithm (the examples construct ReadEntryFlow::new(encryption) and
WriteEntryFlow::new(secret, encryption)) is not part of the source
snapshot; per the spec, for Dh a read yields Entry(Read) then
Crypto(Decrypt), a write yields Crypto(Encrypt) then Entry(Write), a
delete yields Entry(Delete), and for Plain the crypto steps are
omitted. -/

namespace AlgFlow

/-- Modelled from the spec: Algorithm-aware read flow. -/
structure ReadF where
  alg : Algorithm
  state : Option DbusFlow.ReadEntryState
deriving DecidableEq, Repr

def ReadF.new (alg : Algorithm) : ReadF :=
  ⟨alg, some DbusFlow.ReadEntryState.Read⟩

/-- Modelled from the spec: after the read step a Dh flow decrypts,
a Plain flow is done. -/
def ReadF.next (f : ReadF) : Option DbusFlow.Io × ReadF :=
  match f.state with
  | none => (none, f)
  | some DbusFlow.ReadEntryState.Read =>
      (some (DbusFlow.Io.Entry DbusFlow.EntryIo.Read),
       { f with state := if f.alg = Algorithm.Dh then some DbusFlow.ReadEntryState.Decrypt else none })
  | some DbusFlow.ReadEntryState.Decrypt =>
      (some (DbusFlow.Io.Crypto DbusFlow.CryptoIo.Decrypt), { f with state := none })

/-- Modelled from the spec: Algorithm-aware write flow. -/
structure WriteF where
  alg : Algorithm
  state : Option DbusFlow.WriteEntryState
deriving DecidableEq, Repr

/-- Modelled from the spec: a Dh write starts by encrypting, a Plain
write goes straight to the entry write. -/
def WriteF.new (alg : Algorithm) : WriteF :=
  ⟨alg, some (if alg = Algorithm.Dh then DbusFlow.WriteEntryState.Encrypt
              else DbusFlow.WriteEntryState.Write)⟩

def WriteF.next (f : WriteF) : Option DbusFlow.Io × WriteF :=
  match f.state with
  | none => (none, f)
  | some DbusFlow.WriteEntryState.Encrypt =>
      (some (DbusFlow.Io.Crypto DbusFlow.CryptoIo.Encrypt),
       { f with state := some DbusFlow.WriteEntryState.Write })
  | some DbusFlow.WriteEntryState.Write =>
      (some (DbusFlow.Io.Entry DbusFlow.EntryIo.Write), { f with state := none })

/-- Modelled from the spec: the delete flow emits Entry(Delete) once
(matching the DeleteEntryFlow left commented out in
dbus_blocking/flow.rs). -/
structure DeleteF where
  pending : Bool
deriving DecidableEq, Repr

def DeleteF.new : DeleteF :=
  ⟨true⟩

def DeleteF.next (f : DeleteF) : Option DbusFlow.Io × DeleteF :=
  if f.pending then (some (DbusFlow.Io.Entry DbusFlow.EntryIo.Delete), ⟨false⟩)
  else (none, f)

/-- Generic fuel-bounded step collector for any flow. -/
def run {α : Type} (next : α → Option DbusFlow.Io × α) (f : α) : Nat → List DbusFlow.Io
  | 0 => []
  | n + 1 =>
    match next f with
    | (none, _) => []
    | (some io, f') => io :: run next f' n

theorem run_readF_done (f : ReadF) (h : f.state = none) :
    ∀ n, run ReadF.next f n = [] := by
  intro n
  cases n with
  | zero => rfl
  | succ n => simp [run, ReadF.next, h]

theorem run_writeF_done (f : WriteF) (h : f.state = none) :
    ∀ n, run WriteF.next f n = [] := by
  intro n
  cases n with
  | zero => rfl
  | succ n => simp [run, WriteF.next, h]

theorem run_deleteF_done (f : DeleteF) (h : f.pending = false) :
    ∀ n, run DeleteF.next f n = [] := by
  intro n
  cases n with
  | zero => rfl
  | succ n => simp [run, DeleteF.next, h]

end AlgFlow

/-- C4: under Dh a read flow yields exactly [Entry(Read), Crypto(Decrypt)]
and then terminates, a write flow yields exactly [Crypto(Encrypt),
Entry(Write)], a delete flow yields exactly [Entry(Delete)]; under Plain
the crypto steps are never emitted. The Dh read/write sequences are also
proved on the iterator flows of dbus_blocking/flow.rs, which carry no
algorithm and always behave as the Dh case. -/
theorem claim_C4_flow_step_sequences :
    (∀ (p : String) (n : Nat),
      DbusFlow.runRead (DbusFlow.ReadEntryFlow.new p) (n + 2) =
        [DbusFlow.Io.Entry DbusFlow.EntryIo.Read,
         DbusFlow.Io.Crypto DbusFlow.CryptoIo.Decrypt]) ∧
    (∀ (p : String) (s : List Nat) (n : Nat),
      DbusFlow.runWrite (DbusFlow.WriteEntryFlow.new p s) (n + 2) =
        [DbusFlow.Io.Crypto DbusFlow.CryptoIo.Encrypt,
         DbusFlow.Io.Entry DbusFlow.EntryIo.Write]) ∧
    (∀ n : Nat, AlgFlow.run AlgFlow.ReadF.next (AlgFlow.ReadF.new Algorithm.Dh) (n + 2) =
        [DbusFlow.Io.Entry DbusFlow.EntryIo.Read,
         DbusFlow.Io.Crypto DbusFlow.CryptoIo.Decrypt]) ∧
    (∀ n : Nat, AlgFlow.run AlgFlow.WriteF.next (AlgFlow.WriteF.new Algorithm.Dh) (n + 2) =
        [DbusFlow.Io.Crypto DbusFlow.CryptoIo.Encrypt,
         DbusFlow.Io.Entry DbusFlow.EntryIo.Write]) ∧
    (∀ n : Nat, AlgFlow.run AlgFlow.DeleteF.next AlgFlow.DeleteF.new (n + 1) =
        [DbusFlow.Io.Entry DbusFlow.EntryIo.Delete]) ∧
    (∀ n : Nat, AlgFlow.run AlgFlow.ReadF.next (AlgFlow.ReadF.new Algorithm.Plain) (n + 1) =
        [DbusFlow.Io.Entry DbusFlow.EntryIo.Read]) ∧
    (∀ n : Nat, AlgFlow.run AlgFlow.WriteF.next (AlgFlow.WriteF.new Algorithm.Plain) (n + 1) =
        [DbusFlow.Io.Entry DbusFlow.EntryIo.Write]) ∧
    (∀ (fuel : Nat) (io : DbusFlow.Io),
      io ∈ AlgFlow.run AlgFlow.ReadF.next (AlgFlow.ReadF.new Algorithm.Plain) fuel →
      ∀ c, io ≠ DbusFlow.Io.Crypto c) ∧
    (∀ (fuel : Nat) (io : DbusFlow.Io),
      io ∈ AlgFlow.run AlgFlow.WriteF.next (AlgFlow.WriteF.new Algorithm.Plain) fuel →
      ∀ c, io ≠ DbusFlow.Io.Crypto c) := by
  have hreadPlain : ∀ n : Nat,
      AlgFlow.run AlgFlow.ReadF.next (AlgFlow.ReadF.new Algorithm.Plain) (n + 1) =
        [DbusFlow.Io.Entry DbusFlow.EntryIo.Read] := by
    intro n
    have hdone := AlgFlow.run_readF_done ⟨Algorithm.Plain, none⟩ rfl n
    simp [AlgFlow.run, AlgFlow.ReadF.next, AlgFlow.ReadF.new, hdone]
  have hwritePlain : ∀ n : Nat,
      AlgFlow.run AlgFlow.WriteF.next (AlgFlow.WriteF.new Algorithm.Plain) (n + 1) =
        [DbusFlow.Io.Entry DbusFlow.EntryIo.Write] := by
    intro n
    have hdone := AlgFlow.run_writeF_done ⟨Algorithm.Plain, none⟩ rfl n
    simp [AlgFlow.run, AlgFlow.WriteF.next, AlgFlow.WriteF.new, hdone]
  refine ⟨?_, ?_, ?_, ?_, ?_, hreadPlain, hwritePlain, ?_, ?_⟩
  · intro p n
    have hdone := DbusFlow.runRead_done ⟨none, p, none, none⟩ rfl n
    simp [DbusFlow.runRead, DbusFlow.ReadEntryFlow.next, DbusFlow.ReadEntryFlow.new, hdone]
  · intro p s n
    have hdone := DbusFlow.runWrite_done ⟨none, p, some s, none⟩ rfl n
    simp [DbusFlow.runWrite, DbusFlow.WriteEntryFlow.next, DbusFlow.WriteEntryFlow.new, hdone]
  · intro n
    have hdone := AlgFlow.run_readF_done ⟨Algorithm.Dh, none⟩ rfl n
    simp [AlgFlow.run, AlgFlow.ReadF.next, AlgFlow.ReadF.new, hdone]
  · intro n
    have hdone := AlgFlow.run_writeF_done ⟨Algorithm.Dh, none⟩ rfl n
    simp [AlgFlow.run, AlgFlow.WriteF.next, AlgFlow.WriteF.new, hdone]
  · intro n
    have hdone := AlgFlow.run_deleteF_done ⟨false⟩ rfl n
    simp [AlgFlow.run, AlgFlow.DeleteF.next, AlgFlow.DeleteF.new, hdone]
  · intro fuel io hio c
    cases fuel with
    | zero => simp [AlgFlow.run] at hio
    | succ n =>
      rw [hreadPlain n] at hio
      simp at hio
      simp [hio]
  · intro fuel io hio c
    cases fuel with
    | zero => simp [AlgFlow.run] at hio
    | succ n =>
      rw [hwritePlain n] at hio
      simp at hio
      simp [hio]

/-- C2 counterexample: a capability-style Write flow that has signalled
completion emits a further I/O step on the next call. A freshly built
Write flow has done = Some(true) (State::set_secret also marks done), so
its first next() returns Ok(()) — Done — and, because next() consumed the
flag with Option::take, the second next() returns Err(Io::Write), an I/O
step emitted after Done. -/
theorem claim_C2_counterexample :
    (Flows.Write.next (Flows.Write.new ⟨"service", "account"⟩ "hello")).1 = .ok () ∧
    (Flows.Write.next
      (Flows.Write.next (Flows.Write.new ⟨"service", "account"⟩ "hello")).2).1 =
        .error Flows.Io.Write :=
  ⟨rfl, rfl⟩

/-- C2 amended: iterator-style flows emit no further steps once done and
their state no longer changes; a capability-style flow that has signalled
Done re-emits its pending I/O request on a subsequent next() call (the
Done flag was consumed by Option::take); a resumable flow given a
mismatched step input returns the UnexpectedInput error with its state
unchanged — so every subsequent call with a mismatched input returns
UnexpectedInput again, but the error does not latch. -/
theorem claim_C2_amended_flow_termination :
    (∀ f : DbusFlow.ReadEntryFlow, f.state = none → f.next = (none, f)) ∧
    (∀ f : DbusFlow.WriteEntryFlow, f.state = none → f.next = (none, f)) ∧
    (∀ w : Flows.Write, (Flows.Write.next w).1 = .ok () →
      (Flows.Write.next (Flows.Write.next w).2).1 = .error Flows.Io.Write) ∧
    (∀ (r : Coroutines.Read) (io : Coroutines.Io), io.isReadOk = false →
      Coroutines.Read.resume r (some io) =
        (.error (Coroutines.Io.UnexpectedInput io), r)) ∧
    (∀ (r : Coroutines.Read) (io io' : Coroutines.Io),
      io.isReadOk = false → io'.isReadOk = false →
      (Coroutines.Read.resume
        (Coroutines.Read.resume r (some io)).2 (some io')).1 =
          .error (Coroutines.Io.UnexpectedInput io')) := by
  have hmismatch : ∀ (r : Coroutines.Read) (io : Coroutines.Io), io.isReadOk = false →
      Coroutines.Read.resume r (some io) =
        (.error (Coroutines.Io.UnexpectedInput io), r) := by
    intro r io h
    cases io with
    | Read res =>
      cases res with
      | ok s => simp [Coroutines.Io.isReadOk] at h
      | error e => rfl
    | UnavailableInput => rfl
    | UnexpectedInput inner => rfl
    | Write res => rfl
    | Delete res => rfl
  refine ⟨?_, ?_, ?_, hmismatch, ?_⟩
  · intro f h
    cases f with
    | mk st p sec sa =>
      cases h
      rfl
  · intro f h
    cases f with
    | mk st p sec sa =>
      cases h
      rfl
  · intro w h
    cases w with
    | mk st =>
      cases st with
      | mk entry sec d =>
        cases d with
        | none => simp [Flows.Write.next] at h
        | some b =>
          cases b with
          | false => simp [Flows.Write.next] at h
          | true => rfl
  · intro r io io' h h'
    rw [hmismatch r io h, hmismatch r io' h']

/-- Witness for the C2 amended theorem: the concrete capability-style
Write flow after Done, and a fresh Read coroutine fed a Delete result. -/
theorem claim_C2_amended_witness :
    (Flows.Write.next
      (Flows.Write.next (Flows.Write.new ⟨"service", "account"⟩ "hello")).2).1 =
        .error Flows.Io.Write ∧
    Coroutines.Read.resume (Coroutines.Read.new ⟨"service", "account"⟩)
        (some (Coroutines.Io.Delete (.ok ()))) =
      (.error (Coroutines.Io.UnexpectedInput (Coroutines.Io.Delete (.ok ()))),
       Coroutines.Read.new ⟨"service", "account"⟩) :=
  ⟨claim_C2_amended_flow_termination.2.2.1 _ rfl,
   claim_C2_amended_flow_termination.2.2.2.1 _ _ rfl⟩

/-! ## Blocking D-Bus Secret Service driver
(src/secret_service/dbus/blocking/std.rs, and the prompt handler of
lib/src/secret-service/dbus/blocking/std.rs)

D-Bus itself is the environment: an Env record holds the daemon's reply
to each method call, and every driver function also returns the list of
D-Bus calls it made, in order. -/

namespace Driver

/-- A D-Bus object path. dbus::Path::default() is the root path, which
the Secret Service API uses as "no object". -/
abbrev Path := String

/-- Path::default(). -/
def Path.defaultPath : Path := "/"

/-- The driver error enum (the dbus::Error payloads carry no structure
we need). -/
inductive SSError where
  | CreateSessionError
  | OpenSessionError
  | ParseSessionOutputError
  | GetDefaultCollectionError
  | GetSessionCollectionError
  | GetCollectionsError
  | CreateDefaultCollectionError
  | CreateItemError
  | SearchItemsError
  | GetItemNotFoundError (service account : String)
  | GetSecretError
  | DeleteItemError
  | CastServerPublicKeyToBytesError
  | WriteEmptySecretError
  | PromptError
  | PromptMatchSignalError
  | PromptMatchStopError
  | PromptTimeoutError
  | PromptDismissedError
  | ParsePromptPathError
  | ParsePromptSignalError
deriving DecidableEq, Repr

/-- The outcome of a driver function: a value, a returned error, or a
Rust panic (the todo!() branches). -/
inductive DRes (α : Type) where
  | ok (a : α)
  | err (e : SSError)
  | panics
deriving DecidableEq, Repr

/-- One D-Bus method call, as recorded in a driver trace. -/
inductive Call where
  | ReadAlias (name : String)
  | Collections
  | CreateCollection (label : String) (aliasName : String)
  | SearchItems (service account : String)
  | CreateItem (label : String) (service account : String) (session : Path)
      (salt : List Nat) (secret : List Nat) (contentType : String) (replace : Bool)
  | GetSecret (item : Path)
  | DeleteItem (item : Path)
deriving DecidableEq, Repr

/-- The D-Bus daemon's replies; Except Unit models a dbus::Error. -/
structure Env where
  readAlias : String → Except Unit Path
  collections : Except Unit (List Path)
  createCollection : Except Unit (Path × Path)
  searchItems : String → String → Except Unit (List Path)
  createItem : Except Unit (Path × Path)
  getSecret : Path → Except Unit (Path × List Nat × List Nat × String)

/-- SecretService::get_default_collection: try ReadAlias("default"),
then ReadAlias("session"), then the first of Collections, then
CreateCollection with label "default" (whose empty-path branch is a
todo!() panic). -/
def getDefaultCollection (env : Env) : DRes Path × List Call :=
  match env.readAlias "default" with
  | .error _ => (.err SSError.GetDefaultCollectionError, [Call.ReadAlias "default"])
  | .ok p =>
    if p ≠ Path.defaultPath then (.ok p, [Call.ReadAlias "default"])
    else
      match env.readAlias "session" with
      | .error _ => (.err SSError.GetSessionCollectionError,
          [Call.ReadAlias "default", Call.ReadAlias "session"])
      | .ok p2 =>
        if p2 ≠ Path.defaultPath then
          (.ok p2, [Call.ReadAlias "default", Call.ReadAlias "session"])
        else
          match env.collections with
          | .error _ => (.err SSError.GetCollectionsError,
              [Call.ReadAlias "default", Call.ReadAlias "session", Call.Collections])
          | .ok (c :: _) => (.ok c,
              [Call.ReadAlias "default", Call.ReadAlias "session", Call.Collections])
          | .ok [] =>
            match env.createCollection with
            | .error _ => (.err SSError.CreateDefaultCollectionError,
                [Call.ReadAlias "default", Call.ReadAlias "session", Call.Collections,
                 Call.CreateCollection "default" "default"])
            | .ok (cp, _prompt) =>
              if cp = Path.defaultPath then (.panics,
                [Call.ReadAlias "default", Call.ReadAlias "session", Call.Collections,
                 Call.CreateCollection "default" "default"])
              else (.ok cp,
                [Call.ReadAlias "default", Call.ReadAlias "session", Call.Collections,
                 Call.CreateCollection "default" "default"])

/-- Collection::create_item: attributes {service, account}, label
"service:account", secret tuple (session, salt, secret, "text/plain"),
replace = true; an empty item path hits the todo!() prompt branch. -/
def createItem (env : Env) (session : Path) (service account : String)
    (secret salt : List Nat) : DRes Path × List Call :=
  let call := Call.CreateItem (service ++ ":" ++ account) service account session
    salt secret "text/plain" true
  match env.createItem with
  | .error _ => (.err SSError.CreateItemError, [call])
  | .ok (ip, _prompt) =>
    if ip = Path.defaultPath then (.panics, [call])
    else (.ok ip, [call])

/-- The flow state seen by IoConnector::write through the TakeSecret and
TakeSalt capabilities, plus its entry key. -/
structure WFlow where
  key : String
  secret : Option (List Nat)
  salt : Option (List Nat)
deriving DecidableEq, Repr

/-- IoConnector::write: take the flow's secret (error
WriteEmptySecretError when absent), default the salt, then resolve the
default collection and create the item. Returns the outcome, the D-Bus
calls made, and the flow state left behind. -/
def ioWrite (env : Env) (service : String) (session : Path) (flow : WFlow) :
    DRes Unit × List Call × WFlow :=
  match flow.secret with
  | none => (.err SSError.WriteEmptySecretError, [], flow)
  | some secret =>
    let salt := flow.salt.getD []
    let flow' : WFlow := { flow with secret := none, salt := none }
    match getDefaultCollection env with
    | (.ok _coll, calls) =>
      match createItem env session service flow.key secret salt with
      | (.ok _, calls2) => (.ok (), calls ++ calls2, flow')
      | (.err e, calls2) => (.err e, calls ++ calls2, flow')
      | (.panics, calls2) => (.panics, calls ++ calls2, flow')
    | (.err e, calls) => (.err e, calls, flow')
    | (.panics, calls) => (.panics, calls, flow')

/-! ### Prompt handler (lib/src/secret-service/dbus/blocking/std.rs) -/

/-- The Completed signal: dismissed flag plus the result variant.
as_static_inner(0) may be missing (none), and the cast of the first
inner value to an object path may fail (some none). -/
structure PromptSignal where
  dismissed : Bool
  result : Option (Option Path)
deriving DecidableEq, Repr

/-- What one Connection::process(1 s) tick observes: no message, a
message that may carry our Completed signal, or a process error. -/
inductive TickEvent where
  | idle
  | msg (sig : Option PromptSignal)
  | procErr
deriving DecidableEq, Repr

/-- The value the match_signal closure sends through the channel. -/
def promptSignalResult (s : PromptSignal) : DRes Path :=
  if s.dismissed then .err SSError.PromptDismissedError
  else
    match s.result with
    | some (some p) => .ok p
    | some none => .err SSError.ParsePromptPathError
    | none => .err SSError.ParsePromptSignalError

/-- The tick budget of SecretService::prompt: the source reads
let timeout = 5 * 60 * 60 with the comment "5 min". -/
def PROMPT_TIMEOUT : Nat := 5 * 60 * 60

/-- The for-loop of SecretService::prompt: result starts as
Err(PromptTimeoutError); each iteration processes the connection for one
second; a process error breaks with the initial result; a received
Completed signal breaks with its mapped value. -/
def promptLoop (events : Nat → TickEvent) (i : Nat) : Nat → DRes Path
  | 0 => .err SSError.PromptTimeoutError
  | fuel + 1 =>
    match events i with
    | TickEvent.idle => promptLoop events (i + 1) fuel
    | TickEvent.procErr => .err SSError.PromptTimeoutError
    | TickEvent.msg none => promptLoop events (i + 1) fuel
    | TickEvent.msg (some s) => promptSignalResult s

/-- SecretService::prompt: subscribe to Completed, invoke Prompt(""),
drive the loop, then tear the subscription down (a match_stop failure
replaces the result). -/
def prompt (subscribe : Except Unit Unit) (promptCall : Except Unit Unit)
    (events : Nat → TickEvent) (matchStop : Except Unit Unit) : DRes Path :=
  match subscribe with
  | .error _ => .err SSError.PromptMatchSignalError
  | .ok _ =>
    match promptCall with
    | .error _ => .err SSError.PromptError
    | .ok _ =>
      let result := promptLoop events 0 PROMPT_TIMEOUT
      match matchStop with
      | .error _ => .err SSError.PromptMatchStopError
      | .ok _ => result

theorem promptLoop_all_idle (events : Nat → TickEvent)
    (h : ∀ j, events j = TickEvent.idle) :
    ∀ fuel i, promptLoop events i fuel = .err SSError.PromptTimeoutError := by
  intro fuel
  induction fuel with
  | zero => intro i; rfl
  | succ fuel ih =>
    intro i
    simp only [promptLoop, h i]
    exact ih (i + 1)

/-- If the Completed signal arrives k idle ticks after the loop starts
and the budget exceeds k, the loop returns the signal's value. -/
theorem promptLoop_signal (events : Nat → TickEvent) (s : PromptSignal) :
    ∀ k i fuel, (∀ j, j < k → events (i + j) = TickEvent.idle) →
      events (i + k) = TickEvent.msg (some s) → k < fuel →
      promptLoop events i fuel = promptSignalResult s := by
  intro k
  induction k with
  | zero =>
    intro i fuel hidle hsig hlt
    cases fuel with
    | zero => omega
    | succ f =>
      have h0 : events i = TickEvent.msg (some s) := by simpa using hsig
      simp [promptLoop, h0]
  | succ k ih =>
    intro i fuel hidle hsig hlt
    cases fuel with
    | zero => omega
    | succ f =>
      have h0 : events i = TickEvent.idle := by simpa using hidle 0 (by omega)
      simp only [promptLoop, h0]
      refine ih (i + 1) f (fun j hj => ?_) ?_ (by omega)
      · have heq : i + 1 + j = i + (j + 1) := by omega
        rw [heq]
        exact hidle (j + 1) (by omega)
      · have heq : i + 1 + k = i + (k + 1) := by omega
        rw [heq]
        exact hsig

end Driver

/-- C1: the prompt events used below: the Completed signal arrives only
at tick 400, after the claimed 300-tick budget. -/
def lateCompletion : Nat → Driver.TickEvent := fun t =>
  if t = 400 then Driver.TickEvent.msg (some ⟨false, some (some "/x")⟩)
  else Driver.TickEvent.idle

/-- C1 (code bug evaluation): the prompt handler invokes Prompt("") and
drives 1-second ticks, timing out with PromptTimeoutError when no
Completed signal ever arrives — but its tick budget is 5 * 60 * 60 =
18000 ticks (five hours), not the 300 ticks (five minutes) that both the
claim and the source's own "5 min" comment state: a completion at tick
400 still succeeds. -/
theorem claim_C1_prompt_budget_eval :
    Driver.PROMPT_TIMEOUT = 18000 ∧
    Driver.PROMPT_TIMEOUT ≠ 300 ∧
    Driver.prompt (.ok ()) (.ok ()) (fun _ => Driver.TickEvent.idle) (.ok ()) =
      .err Driver.SSError.PromptTimeoutError ∧
    Driver.prompt (.ok ()) (.ok ()) lateCompletion (.ok ()) = .ok "/x" := by
  refine ⟨rfl, by decide, ?_, ?_⟩
  · simp only [Driver.prompt]
    exact Driver.promptLoop_all_idle _ (fun j => rfl) _ 0
  · simp only [Driver.prompt]
    have h := Driver.promptLoop_signal lateCompletion ⟨false, some (some "/x")⟩
      400 0 Driver.PROMPT_TIMEOUT
      (fun j hj => by simp [lateCompletion]; omega)
      (by norm_num [lateCompletion])
      (by norm_num [Driver.PROMPT_TIMEOUT])
    rw [h]
    rfl

/-- C9: get_default_collection tries ReadAlias("default") first, falls
back to ReadAlias("session"), then to the first of Collections, then
creates a collection labelled "default"; in particular, when the default
alias is empty and the session alias is not, that path is used and
neither Collections nor CreateCollection is called. -/
theorem claim_C9_get_default_collection (env : Driver.Env) :
    (∀ p, env.readAlias "default" = .ok p → p ≠ Driver.Path.defaultPath →
      Driver.getDefaultCollection env = (.ok p, [Driver.Call.ReadAlias "default"])) ∧
    (∀ p, env.readAlias "default" = .ok Driver.Path.defaultPath →
      env.readAlias "session" = .ok p → p ≠ Driver.Path.defaultPath →
      Driver.getDefaultCollection env =
        (.ok p, [Driver.Call.ReadAlias "default", Driver.Call.ReadAlias "session"])) ∧
    (∀ c cs, env.readAlias "default" = .ok Driver.Path.defaultPath →
      env.readAlias "session" = .ok Driver.Path.defaultPath →
      env.collections = .ok (c :: cs) →
      Driver.getDefaultCollection env =
        (.ok c, [Driver.Call.ReadAlias "default", Driver.Call.ReadAlias "session",
                 Driver.Call.Collections])) ∧
    (∀ cp pp, env.readAlias "default" = .ok Driver.Path.defaultPath →
      env.readAlias "session" = .ok Driver.Path.defaultPath →
      env.collections = .ok [] →
      env.createCollection = .ok (cp, pp) → cp ≠ Driver.Path.defaultPath →
      Driver.getDefaultCollection env =
        (.ok cp, [Driver.Call.ReadAlias "default", Driver.Call.ReadAlias "session",
                  Driver.Call.Collections,
                  Driver.Call.CreateCollection "default" "default"])) := by
  refine ⟨?_, ?_, ?_, ?_⟩
  · intro p h hp
    simp [Driver.getDefaultCollection, h, hp]
  · intro p h h2 hp
    simp [Driver.getDefaultCollection, h, h2, hp]
  · intro c cs h h2 hc
    simp [Driver.getDefaultCollection, h, h2, hc]
  · intro cp pp h h2 hc hcc hp
    simp [Driver.getDefaultCollection, h, h2, hc, hcc, hp]

/-- A concrete daemon whose default alias is the empty path and whose
session alias is /coll/s; every other call fails. -/
def envSessionAlias : Driver.Env where
  readAlias := fun n =>
    if n = "default" then .ok Driver.Path.defaultPath
    else if n = "session" then .ok "/coll/s"
    else .error ()
  collections := .error ()
  createCollection := .error ()
  searchItems := fun _ _ => .error ()
  createItem := .error ()
  getSecret := fun _ => .error ()

/-- Witness for C9: on envSessionAlias the driver picks /coll/s after
exactly the two ReadAlias calls. -/
theorem claim_C9_witness :
    Driver.getDefaultCollection envSessionAlias =
      (.ok "/coll/s",
       [Driver.Call.ReadAlias "default", Driver.Call.ReadAlias "session"]) :=
  (claim_C9_get_default_collection envSessionAlias).2.1 "/coll/s" rfl rfl (by decide)

/-- C3: a Secret Service write whose flow carries no secret (the code's
meaning of an empty secret: TakeSecret::take_secret returns None) fails
with WriteEmptySecretError, makes no D-Bus call at all — so the keyring
state is untouched — and leaves the flow state unchanged. -/
theorem claim_C3_write_empty_secret (env : Driver.Env) (service : String)
    (session : Driver.Path) (flow : Driver.WFlow) (h : flow.secret = none) :
    Driver.ioWrite env service session flow =
      (.err Driver.SSError.WriteEmptySecretError, [], flow) := by
  unfold Driver.ioWrite
  rw [h]

/-- Witness for C3 on a concrete flow with no secret. -/
theorem claim_C3_witness :
    Driver.ioWrite envSessionAlias "svc" "/session" ⟨"acct", none, none⟩ =
      (.err Driver.SSError.WriteEmptySecretError, [], ⟨"acct", none, none⟩) :=
  claim_C3_write_empty_secret envSessionAlias "svc" "/session" ⟨"acct", none, none⟩ rfl


/-! ## AES-128-CBC with PKCS7 padding

Model of the external block cipher stack used by
src/secret_service/dbus/crypto/rust_crypto/std.rs (the aes, cbc and
block-padding crates) per FIPS 197: bytes are Nat below 256, the state
is a 16-field structure in column-major byte order. -/

namespace Aes


def sboxT : List Nat :=
  [99, 124, 119, 123, 242, 107, 111, 197, 48, 1, 103, 43, 254, 215, 171, 118,
   202, 130, 201, 125, 250, 89, 71, 240, 173, 212, 162, 175, 156, 164, 114, 192,
   183, 253, 147, 38, 54, 63, 247, 204, 52, 165, 229, 241, 113, 216, 49, 21,
   4, 199, 35, 195, 24, 150, 5, 154, 7, 18, 128, 226, 235, 39, 178, 117,
   9, 131, 44, 26, 27, 110, 90, 160, 82, 59, 214, 179, 41, 227, 47, 132,
   83, 209, 0, 237, 32, 252, 177, 91, 106, 203, 190, 57, 74, 76, 88, 207,
   208, 239, 170, 251, 67, 77, 51, 133, 69, 249, 2, 127, 80, 60, 159, 168,
   81, 163, 64, 143, 146, 157, 56, 245, 188, 182, 218, 33, 16, 255, 243, 210,
   205, 12, 19, 236, 95, 151, 68, 23, 196, 167, 126, 61, 100, 93, 25, 115,
   96, 129, 79, 220, 34, 42, 144, 136, 70, 238, 184, 20, 222, 94, 11, 219,
   224, 50, 58, 10, 73, 6, 36, 92, 194, 211, 172, 98, 145, 149, 228, 121,
   231, 200, 55, 109, 141, 213, 78, 169, 108, 86, 244, 234, 101, 122, 174, 8,
   186, 120, 37, 46, 28, 166, 180, 198, 232, 221, 116, 31, 75, 189, 139, 138,
   112, 62, 181, 102, 72, 3, 246, 14, 97, 53, 87, 185, 134, 193, 29, 158,
   225, 248, 152, 17, 105, 217, 142, 148, 155, 30, 135, 233, 206, 85, 40, 223,
   140, 161, 137, 13, 191, 230, 66, 104, 65, 153, 45, 15, 176, 84, 187, 22]

def invSboxT : List Nat :=
  [82, 9, 106, 213, 48, 54, 165, 56, 191, 64, 163, 158, 129, 243, 215, 251,
   124, 227, 57, 130, 155, 47, 255, 135, 52, 142, 67, 68, 196, 222, 233, 203,
   84, 123, 148, 50, 166, 194, 35, 61, 238, 76, 149, 11, 66, 250, 195, 78,
   8, 46, 161, 102, 40, 217, 36, 178, 118, 91, 162, 73, 109, 139, 209, 37,
   114, 248, 246, 100, 134, 104, 152, 22, 212, 164, 92, 204, 93, 101, 182, 146,
   108, 112, 72, 80, 253, 237, 185, 218, 94, 21, 70, 87, 167, 141, 157, 132,
   144, 216, 171, 0, 140, 188, 211, 10, 247, 228, 88, 5, 184, 179, 69, 6,
   208, 44, 30, 143, 202, 63, 15, 2, 193, 175, 189, 3, 1, 19, 138, 107,
   58, 145, 17, 65, 79, 103, 220, 234, 151, 242, 207, 206, 240, 180, 230, 115,
   150, 172, 116, 34, 231, 173, 53, 133, 226, 249, 55, 232, 28, 117, 223, 110,
   71, 241, 26, 113, 29, 41, 197, 137, 111, 183, 98, 14, 170, 24, 190, 27,
   252, 86, 62, 75, 198, 210, 121, 32, 154, 219, 192, 254, 120, 205, 90, 244,
   31, 221, 168, 51, 136, 7, 199, 49, 177, 18, 16, 89, 39, 128, 236, 95,
   96, 81, 127, 169, 25, 181, 74, 13, 45, 229, 122, 159, 147, 201, 156, 239,
   160, 224, 59, 77, 174, 42, 245, 176, 200, 235, 187, 60, 131, 83, 153, 97,
   23, 43, 4, 126, 186, 119, 214, 38, 225, 105, 20, 99, 85, 33, 12, 125]


/-- S-box lookup. -/
def sbox (b : Nat) : Nat := sboxT.getD b 0

/-- Inverse S-box lookup. -/
def invSbox (b : Nat) : Nat := invSboxT.getD b 0

/-- Multiplication by x in GF(2^8) modulo x^8 + x^4 + x^3 + x + 1. -/
def xtime (b : Nat) : Nat := (2 * b % 256) ^^^ (if 128 <= b then 27 else 0)

def mul2 (b : Nat) : Nat := xtime b
def mul3 (b : Nat) : Nat := xtime b ^^^ b
def mul9 (b : Nat) : Nat := xtime (xtime (xtime b)) ^^^ b
def mul11 (b : Nat) : Nat := xtime (xtime (xtime b)) ^^^ xtime b ^^^ b
def mul13 (b : Nat) : Nat := xtime (xtime (xtime b)) ^^^ xtime (xtime b) ^^^ b
def mul14 (b : Nat) : Nat := xtime (xtime (xtime b)) ^^^ xtime (xtime b) ^^^ xtime b

instance : Std.Associative (α := Nat) (· ^^^ ·) := ⟨Nat.xor_assoc⟩
instance : Std.Commutative (α := Nat) (· ^^^ ·) := ⟨Nat.xor_comm⟩

theorem xor_lt256 {a b : Nat} (ha : a < 256) (hb : b < 256) : a ^^^ b < 256 := by
  have h := Nat.xor_lt_two_pow (n := 8) (by simpa using ha) (by simpa using hb)
  simpa using h

theorem xtime_lt (b : Nat) : xtime b < 256 := by
  unfold xtime
  refine xor_lt256 (Nat.mod_lt _ (by omega)) ?_
  split <;> omega

theorem mul2_lt (b : Nat) : mul2 b < 256 := xtime_lt b

theorem mul3_lt {b : Nat} (hb : b < 256) : mul3 b < 256 :=
  xor_lt256 (xtime_lt b) hb

theorem mul9_lt {b : Nat} (hb : b < 256) : mul9 b < 256 :=
  xor_lt256 (xtime_lt _) hb

theorem mul11_lt {b : Nat} (hb : b < 256) : mul11 b < 256 :=
  xor_lt256 (xor_lt256 (xtime_lt _) (xtime_lt _)) hb

theorem mul13_lt {b : Nat} (hb : b < 256) : mul13 b < 256 :=
  xor_lt256 (xor_lt256 (xtime_lt _) (xtime_lt _)) hb

theorem mul14_lt (b : Nat) : mul14 b < 256 :=
  xor_lt256 (xor_lt256 (xtime_lt _) (xtime_lt _)) (xtime_lt _)

theorem double_mod_xor (x y : Nat) :
    2 * (x ^^^ y) % 256 = (2 * x % 256) ^^^ (2 * y % 256) := by
  have h2 : ∀ z : Nat, 2 * z = z <<< 1 := by
    intro z
    rw [Nat.shiftLeft_eq]
    ring
  refine Nat.eq_of_testBit_eq fun i => ?_
  have h256 : (256 : Nat) = 2 ^ 8 := by norm_num
  rw [h2, h2, h2, h256]
  simp only [Nat.testBit_mod_two_pow, Nat.testBit_shiftLeft, Nat.testBit_xor]
  cases Bool.decEq (decide (i < 8)) true with
  | isTrue h => simp [h, Bool.and_xor_distrib_left]
  | isFalse h =>
    have hfalse : decide (i < 8) = false := by revert h; cases decide (i < 8) <;> simp
    simp [hfalse]

theorem highbit_iff (z : Nat) (hz : z < 256) : z.testBit 7 = decide (128 <= z) := by
  rw [Nat.testBit_to_div_mod]
  rcases Nat.lt_or_ge z 128 with h | h
  · have hz0 : z / 2 ^ 7 = 0 := by
      apply Nat.div_eq_of_lt
      simpa using h
    simp [hz0]
    omega
  · have hz1 : z / 2 ^ 7 = 1 := by
      have h128 : (2 : Nat) ^ 7 = 128 := by norm_num
      rw [h128]
      omega
    simp [hz1]
    omega

theorem cond_xor (x y : Nat) (hx : x < 256) (hy : y < 256) :
    (if 128 <= (x ^^^ y) then 27 else 0) =
      ((if 128 <= x then 27 else 0) ^^^ (if 128 <= y then 27 else 0) : Nat) := by
  have hxy : x ^^^ y < 256 := xor_lt256 hx hy
  have h1 := highbit_iff x hx
  have h2 := highbit_iff y hy
  have h3 := highbit_iff (x ^^^ y) hxy
  have h4 : (x ^^^ y).testBit 7 = (x.testBit 7).xor (y.testBit 7) := by
    simp [Nat.testBit_xor]
  rw [h1, h2, h3] at h4
  rcases Nat.lt_or_ge x 128 with hx7 | hx7 <;> rcases Nat.lt_or_ge y 128 with hy7 | hy7 <;>
    simp [hx7, hy7, Nat.not_le.mpr, show ¬(128 <= x) ↔ x < 128 from Nat.not_le, *] at h4 ⊢ <;>
    omega

/-- xtime is linear over XOR on bytes. -/
theorem xtime_linear (x y : Nat) (hx : x < 256) (hy : y < 256) :
    xtime (x ^^^ y) = xtime x ^^^ xtime y := by
  unfold xtime
  rw [double_mod_xor, cond_xor x y hx hy]
  ac_rfl

theorem mul2_linear (x y : Nat) (hx : x < 256) (hy : y < 256) :
    mul2 (x ^^^ y) = mul2 x ^^^ mul2 y := xtime_linear x y hx hy

theorem mul3_linear (x y : Nat) (hx : x < 256) (hy : y < 256) :
    mul3 (x ^^^ y) = mul3 x ^^^ mul3 y := by
  unfold mul3
  rw [xtime_linear x y hx hy]
  ac_rfl

theorem mul9_linear (x y : Nat) (hx : x < 256) (hy : y < 256) :
    mul9 (x ^^^ y) = mul9 x ^^^ mul9 y := by
  unfold mul9
  rw [xtime_linear x y hx hy, xtime_linear _ _ (xtime_lt x) (xtime_lt y),
    xtime_linear _ _ (xtime_lt _) (xtime_lt _)]
  ac_rfl

theorem mul11_linear (x y : Nat) (hx : x < 256) (hy : y < 256) :
    mul11 (x ^^^ y) = mul11 x ^^^ mul11 y := by
  unfold mul11
  rw [xtime_linear x y hx hy, xtime_linear _ _ (xtime_lt x) (xtime_lt y),
    xtime_linear _ _ (xtime_lt _) (xtime_lt _)]
  ac_rfl

theorem mul13_linear (x y : Nat) (hx : x < 256) (hy : y < 256) :
    mul13 (x ^^^ y) = mul13 x ^^^ mul13 y := by
  unfold mul13
  rw [xtime_linear x y hx hy, xtime_linear _ _ (xtime_lt x) (xtime_lt y),
    xtime_linear _ _ (xtime_lt _) (xtime_lt _)]
  ac_rfl

theorem mul14_linear (x y : Nat) (hx : x < 256) (hy : y < 256) :
    mul14 (x ^^^ y) = mul14 x ^^^ mul14 y := by
  unfold mul14
  rw [xtime_linear x y hx hy, xtime_linear _ _ (xtime_lt x) (xtime_lt y),
    xtime_linear _ _ (xtime_lt _) (xtime_lt _)]
  ac_rfl

/-- Distribute a linear byte map over a four-term XOR. -/
theorem linear4 (f : Nat → Nat)
    (hf : ∀ x y, x < 256 → y < 256 → f (x ^^^ y) = f x ^^^ f y)
    (p q r t : Nat) (hp : p < 256) (hq : q < 256) (hr : r < 256) (ht : t < 256) :
    f (p ^^^ q ^^^ r ^^^ t) = f p ^^^ f q ^^^ f r ^^^ f t := by
  rw [hf _ t (xor_lt256 (xor_lt256 hp hq) hr) ht,
    hf _ r (xor_lt256 hp hq) hr, hf p q hp hq]

set_option maxRecDepth 10000 in
theorem colFact0 : ∀ x : Fin 256,
    mul14 (mul2 x.val) ^^^ mul11 x.val ^^^ mul13 x.val ^^^ mul9 (mul3 x.val) = x.val := by
  decide

theorem colFact0_nat (x : Nat) (hx : x < 256) :
    mul14 (mul2 x) ^^^ mul11 x ^^^ mul13 x ^^^ mul9 (mul3 x) = x := by
  have h := colFact0 ⟨x, hx⟩
  simpa using h

set_option maxRecDepth 10000 in
theorem colFact1 : ∀ x : Fin 256,
    mul14 (mul3 x.val) ^^^ mul11 (mul2 x.val) ^^^ mul13 x.val ^^^ mul9 x.val = 0 := by
  decide

theorem colFact1_nat (x : Nat) (hx : x < 256) :
    mul14 (mul3 x) ^^^ mul11 (mul2 x) ^^^ mul13 x ^^^ mul9 x = 0 := by
  have h := colFact1 ⟨x, hx⟩
  simpa using h

set_option maxRecDepth 10000 in
theorem colFact2 : ∀ x : Fin 256,
    mul14 x.val ^^^ mul11 (mul3 x.val) ^^^ mul13 (mul2 x.val) ^^^ mul9 x.val = 0 := by
  decide

theorem colFact2_nat (x : Nat) (hx : x < 256) :
    mul14 x ^^^ mul11 (mul3 x) ^^^ mul13 (mul2 x) ^^^ mul9 x = 0 := by
  have h := colFact2 ⟨x, hx⟩
  simpa using h

set_option maxRecDepth 10000 in
theorem colFact3 : ∀ x : Fin 256,
    mul14 x.val ^^^ mul11 x.val ^^^ mul13 (mul3 x.val) ^^^ mul9 (mul2 x.val) = 0 := by
  decide

theorem colFact3_nat (x : Nat) (hx : x < 256) :
    mul14 x ^^^ mul11 x ^^^ mul13 (mul3 x) ^^^ mul9 (mul2 x) = 0 := by
  have h := colFact3 ⟨x, hx⟩
  simpa using h

theorem colInv0 (a b c d : Nat)
    (ha : a < 256) (hb : b < 256) (hc : c < 256) (hd : d < 256) :
    mul14 (mul2 a ^^^ mul3 b ^^^ c ^^^ d) ^^^
    mul11 (a ^^^ mul2 b ^^^ mul3 c ^^^ d) ^^^
    mul13 (a ^^^ b ^^^ mul2 c ^^^ mul3 d) ^^^
    mul9 (mul3 a ^^^ b ^^^ c ^^^ mul2 d) = a := by
  rw [linear4 mul14 mul14_linear (mul2 a) (mul3 b) c d (mul2_lt a) (mul3_lt hb) hc hd,
    linear4 mul11 mul11_linear a (mul2 b) (mul3 c) d ha (mul2_lt b) (mul3_lt hc) hd,
    linear4 mul13 mul13_linear a b (mul2 c) (mul3 d) ha hb (mul2_lt c) (mul3_lt hd),
    linear4 mul9 mul9_linear (mul3 a) b c (mul2 d) (mul3_lt ha) hb hc (mul2_lt d)]
  calc (mul14 (mul2 a) ^^^ mul14 (mul3 b) ^^^ mul14 c ^^^ mul14 d) ^^^ (mul11 a ^^^ mul11 (mul2 b) ^^^ mul11 (mul3 c) ^^^ mul11 d) ^^^ (mul13 a ^^^ mul13 b ^^^ mul13 (mul2 c) ^^^ mul13 (mul3 d)) ^^^ (mul9 (mul3 a) ^^^ mul9 b ^^^ mul9 c ^^^ mul9 (mul2 d))
      = (mul14 (mul2 a) ^^^ mul11 a ^^^ mul13 a ^^^ mul9 (mul3 a)) ^^^ (mul14 (mul3 b) ^^^ mul11 (mul2 b) ^^^ mul13 b ^^^ mul9 b) ^^^ (mul14 c ^^^ mul11 (mul3 c) ^^^ mul13 (mul2 c) ^^^ mul9 c) ^^^ (mul14 d ^^^ mul11 d ^^^ mul13 (mul3 d) ^^^ mul9 (mul2 d)) := by ac_rfl
    _ = a := by
        rw [colFact0_nat a ha, colFact1_nat b hb, colFact2_nat c hc, colFact3_nat d hd]
        simp

theorem colInv1 (a b c d : Nat)
    (ha : a < 256) (hb : b < 256) (hc : c < 256) (hd : d < 256) :
    mul9 (mul2 a ^^^ mul3 b ^^^ c ^^^ d) ^^^
    mul14 (a ^^^ mul2 b ^^^ mul3 c ^^^ d) ^^^
    mul11 (a ^^^ b ^^^ mul2 c ^^^ mul3 d) ^^^
    mul13 (mul3 a ^^^ b ^^^ c ^^^ mul2 d) = b := by
  rw [linear4 mul9 mul9_linear (mul2 a) (mul3 b) c d (mul2_lt a) (mul3_lt hb) hc hd,
    linear4 mul14 mul14_linear a (mul2 b) (mul3 c) d ha (mul2_lt b) (mul3_lt hc) hd,
    linear4 mul11 mul11_linear a b (mul2 c) (mul3 d) ha hb (mul2_lt c) (mul3_lt hd),
    linear4 mul13 mul13_linear (mul3 a) b c (mul2 d) (mul3_lt ha) hb hc (mul2_lt d)]
  calc (mul9 (mul2 a) ^^^ mul9 (mul3 b) ^^^ mul9 c ^^^ mul9 d) ^^^ (mul14 a ^^^ mul14 (mul2 b) ^^^ mul14 (mul3 c) ^^^ mul14 d) ^^^ (mul11 a ^^^ mul11 b ^^^ mul11 (mul2 c) ^^^ mul11 (mul3 d)) ^^^ (mul13 (mul3 a) ^^^ mul13 b ^^^ mul13 c ^^^ mul13 (mul2 d))
      = (mul14 a ^^^ mul11 a ^^^ mul13 (mul3 a) ^^^ mul9 (mul2 a)) ^^^ (mul14 (mul2 b) ^^^ mul11 b ^^^ mul13 b ^^^ mul9 (mul3 b)) ^^^ (mul14 (mul3 c) ^^^ mul11 (mul2 c) ^^^ mul13 c ^^^ mul9 c) ^^^ (mul14 d ^^^ mul11 (mul3 d) ^^^ mul13 (mul2 d) ^^^ mul9 d) := by ac_rfl
    _ = b := by
        rw [colFact3_nat a ha, colFact0_nat b hb, colFact1_nat c hc, colFact2_nat d hd]
        simp

theorem colInv2 (a b c d : Nat)
    (ha : a < 256) (hb : b < 256) (hc : c < 256) (hd : d < 256) :
    mul13 (mul2 a ^^^ mul3 b ^^^ c ^^^ d) ^^^
    mul9 (a ^^^ mul2 b ^^^ mul3 c ^^^ d) ^^^
    mul14 (a ^^^ b ^^^ mul2 c ^^^ mul3 d) ^^^
    mul11 (mul3 a ^^^ b ^^^ c ^^^ mul2 d) = c := by
  rw [linear4 mul13 mul13_linear (mul2 a) (mul3 b) c d (mul2_lt a) (mul3_lt hb) hc hd,
    linear4 mul9 mul9_linear a (mul2 b) (mul3 c) d ha (mul2_lt b) (mul3_lt hc) hd,
    linear4 mul14 mul14_linear a b (mul2 c) (mul3 d) ha hb (mul2_lt c) (mul3_lt hd),
    linear4 mul11 mul11_linear (mul3 a) b c (mul2 d) (mul3_lt ha) hb hc (mul2_lt d)]
  calc (mul13 (mul2 a) ^^^ mul13 (mul3 b) ^^^ mul13 c ^^^ mul13 d) ^^^ (mul9 a ^^^ mul9 (mul2 b) ^^^ mul9 (mul3 c) ^^^ mul9 d) ^^^ (mul14 a ^^^ mul14 b ^^^ mul14 (mul2 c) ^^^ mul14 (mul3 d)) ^^^ (mul11 (mul3 a) ^^^ mul11 b ^^^ mul11 c ^^^ mul11 (mul2 d))
      = (mul14 a ^^^ mul11 (mul3 a) ^^^ mul13 (mul2 a) ^^^ mul9 a) ^^^ (mul14 b ^^^ mul11 b ^^^ mul13 (mul3 b) ^^^ mul9 (mul2 b)) ^^^ (mul14 (mul2 c) ^^^ mul11 c ^^^ mul13 c ^^^ mul9 (mul3 c)) ^^^ (mul14 (mul3 d) ^^^ mul11 (mul2 d) ^^^ mul13 d ^^^ mul9 d) := by ac_rfl
    _ = c := by
        rw [colFact2_nat a ha, colFact3_nat b hb, colFact0_nat c hc, colFact1_nat d hd]
        simp

theorem colInv3 (a b c d : Nat)
    (ha : a < 256) (hb : b < 256) (hc : c < 256) (hd : d < 256) :
    mul11 (mul2 a ^^^ mul3 b ^^^ c ^^^ d) ^^^
    mul13 (a ^^^ mul2 b ^^^ mul3 c ^^^ d) ^^^
    mul9 (a ^^^ b ^^^ mul2 c ^^^ mul3 d) ^^^
    mul14 (mul3 a ^^^ b ^^^ c ^^^ mul2 d) = d := by
  rw [linear4 mul11 mul11_linear (mul2 a) (mul3 b) c d (mul2_lt a) (mul3_lt hb) hc hd,
    linear4 mul13 mul13_linear a (mul2 b) (mul3 c) d ha (mul2_lt b) (mul3_lt hc) hd,
    linear4 mul9 mul9_linear a b (mul2 c) (mul3 d) ha hb (mul2_lt c) (mul3_lt hd),
    linear4 mul14 mul14_linear (mul3 a) b c (mul2 d) (mul3_lt ha) hb hc (mul2_lt d)]
  calc (mul11 (mul2 a) ^^^ mul11 (mul3 b) ^^^ mul11 c ^^^ mul11 d) ^^^ (mul13 a ^^^ mul13 (mul2 b) ^^^ mul13 (mul3 c) ^^^ mul13 d) ^^^ (mul9 a ^^^ mul9 b ^^^ mul9 (mul2 c) ^^^ mul9 (mul3 d)) ^^^ (mul14 (mul3 a) ^^^ mul14 b ^^^ mul14 c ^^^ mul14 (mul2 d))
      = (mul14 (mul3 a) ^^^ mul11 (mul2 a) ^^^ mul13 a ^^^ mul9 a) ^^^ (mul14 b ^^^ mul11 (mul3 b) ^^^ mul13 (mul2 b) ^^^ mul9 b) ^^^ (mul14 c ^^^ mul11 c ^^^ mul13 (mul3 c) ^^^ mul9 (mul2 c)) ^^^ (mul14 (mul2 d) ^^^ mul11 d ^^^ mul13 d ^^^ mul9 (mul3 d)) := by ac_rfl
    _ = d := by
        rw [colFact1_nat a ha, colFact2_nat b hb, colFact3_nat c hc, colFact0_nat d hd]
        simp


set_option maxRecDepth 10000 in
theorem sboxT_lt : ∀ x ∈ sboxT, x < 256 := by decide

set_option maxRecDepth 10000 in
theorem invSboxT_lt : ∀ x ∈ invSboxT, x < 256 := by decide

set_option maxRecDepth 10000 in
theorem invSbox_sbox_fin : ∀ b : Fin 256, invSbox (sbox b.val) = b.val := by decide

theorem getD_lt (l : List Nat) (hl : ∀ x ∈ l, x < 256) (i d : Nat) (hd : d < 256) :
    l.getD i d < 256 := by
  rw [List.getD_eq_getElem?_getD]
  rcases h : l[i]? with _ | x
  · simpa using hd
  · have hx : x ∈ l := List.getElem?_mem h
    simpa using hl x hx

theorem sbox_lt (b : Nat) : sbox b < 256 := getD_lt sboxT sboxT_lt b 0 (by norm_num)

theorem invSbox_lt (b : Nat) : invSbox b < 256 := getD_lt invSboxT invSboxT_lt b 0 (by norm_num)

theorem invSbox_sbox {b : Nat} (hb : b < 256) : invSbox (sbox b) = b := by
  have h := invSbox_sbox_fin ⟨b, hb⟩
  simpa using h

/-- The AES state: 16 bytes in column-major order. -/
structure St where

  b0 : Nat
  b1 : Nat
  b2 : Nat
  b3 : Nat
  b4 : Nat
  b5 : Nat
  b6 : Nat
  b7 : Nat
  b8 : Nat
  b9 : Nat
  b10 : Nat
  b11 : Nat
  b12 : Nat
  b13 : Nat
  b14 : Nat
  b15 : Nat
deriving DecidableEq, Repr

def xorSt (x y : St) : St :=
  ⟨x.b0 ^^^ y.b0, x.b1 ^^^ y.b1, x.b2 ^^^ y.b2, x.b3 ^^^ y.b3, x.b4 ^^^ y.b4, x.b5 ^^^ y.b5, x.b6 ^^^ y.b6, x.b7 ^^^ y.b7, x.b8 ^^^ y.b8, x.b9 ^^^ y.b9, x.b10 ^^^ y.b10, x.b11 ^^^ y.b11, x.b12 ^^^ y.b12, x.b13 ^^^ y.b13, x.b14 ^^^ y.b14, x.b15 ^^^ y.b15⟩

def subBytes (s : St) : St :=
  ⟨sbox s.b0, sbox s.b1, sbox s.b2, sbox s.b3, sbox s.b4, sbox s.b5, sbox s.b6, sbox s.b7, sbox s.b8, sbox s.b9, sbox s.b10, sbox s.b11, sbox s.b12, sbox s.b13, sbox s.b14, sbox s.b15⟩

def invSubBytes (s : St) : St :=
  ⟨invSbox s.b0, invSbox s.b1, invSbox s.b2, invSbox s.b3, invSbox s.b4, invSbox s.b5, invSbox s.b6, invSbox s.b7, invSbox s.b8, invSbox s.b9, invSbox s.b10, invSbox s.b11, invSbox s.b12, invSbox s.b13, invSbox s.b14, invSbox s.b15⟩

def shiftRows (s : St) : St :=
  ⟨s.b0, s.b5, s.b10, s.b15, s.b4, s.b9, s.b14, s.b3, s.b8, s.b13, s.b2, s.b7, s.b12, s.b1, s.b6, s.b11⟩

def invShiftRows (s : St) : St :=
  ⟨s.b0, s.b13, s.b10, s.b7, s.b4, s.b1, s.b14, s.b11, s.b8, s.b5, s.b2, s.b15, s.b12, s.b9, s.b6, s.b3⟩

def mixColumns (s : St) : St :=
  ⟨mul2 s.b0 ^^^ mul3 s.b1 ^^^ s.b2 ^^^ s.b3,
   s.b0 ^^^ mul2 s.b1 ^^^ mul3 s.b2 ^^^ s.b3,
   s.b0 ^^^ s.b1 ^^^ mul2 s.b2 ^^^ mul3 s.b3,
   mul3 s.b0 ^^^ s.b1 ^^^ s.b2 ^^^ mul2 s.b3,
   mul2 s.b4 ^^^ mul3 s.b5 ^^^ s.b6 ^^^ s.b7,
   s.b4 ^^^ mul2 s.b5 ^^^ mul3 s.b6 ^^^ s.b7,
   s.b4 ^^^ s.b5 ^^^ mul2 s.b6 ^^^ mul3 s.b7,
   mul3 s.b4 ^^^ s.b5 ^^^ s.b6 ^^^ mul2 s.b7,
   mul2 s.b8 ^^^ mul3 s.b9 ^^^ s.b10 ^^^ s.b11,
   s.b8 ^^^ mul2 s.b9 ^^^ mul3 s.b10 ^^^ s.b11,
   s.b8 ^^^ s.b9 ^^^ mul2 s.b10 ^^^ mul3 s.b11,
   mul3 s.b8 ^^^ s.b9 ^^^ s.b10 ^^^ mul2 s.b11,
   mul2 s.b12 ^^^ mul3 s.b13 ^^^ s.b14 ^^^ s.b15,
   s.b12 ^^^ mul2 s.b13 ^^^ mul3 s.b14 ^^^ s.b15,
   s.b12 ^^^ s.b13 ^^^ mul2 s.b14 ^^^ mul3 s.b15,
   mul3 s.b12 ^^^ s.b13 ^^^ s.b14 ^^^ mul2 s.b15⟩

def invMixColumns (s : St) : St :=
  ⟨mul14 s.b0 ^^^ mul11 s.b1 ^^^ mul13 s.b2 ^^^ mul9 s.b3,
   mul9 s.b0 ^^^ mul14 s.b1 ^^^ mul11 s.b2 ^^^ mul13 s.b3,
   mul13 s.b0 ^^^ mul9 s.b1 ^^^ mul14 s.b2 ^^^ mul11 s.b3,
   mul11 s.b0 ^^^ mul13 s.b1 ^^^ mul9 s.b2 ^^^ mul14 s.b3,
   mul14 s.b4 ^^^ mul11 s.b5 ^^^ mul13 s.b6 ^^^ mul9 s.b7,
   mul9 s.b4 ^^^ mul14 s.b5 ^^^ mul11 s.b6 ^^^ mul13 s.b7,
   mul13 s.b4 ^^^ mul9 s.b5 ^^^ mul14 s.b6 ^^^ mul11 s.b7,
   mul11 s.b4 ^^^ mul13 s.b5 ^^^ mul9 s.b6 ^^^ mul14 s.b7,
   mul14 s.b8 ^^^ mul11 s.b9 ^^^ mul13 s.b10 ^^^ mul9 s.b11,
   mul9 s.b8 ^^^ mul14 s.b9 ^^^ mul11 s.b10 ^^^ mul13 s.b11,
   mul13 s.b8 ^^^ mul9 s.b9 ^^^ mul14 s.b10 ^^^ mul11 s.b11,
   mul11 s.b8 ^^^ mul13 s.b9 ^^^ mul9 s.b10 ^^^ mul14 s.b11,
   mul14 s.b12 ^^^ mul11 s.b13 ^^^ mul13 s.b14 ^^^ mul9 s.b15,
   mul9 s.b12 ^^^ mul14 s.b13 ^^^ mul11 s.b14 ^^^ mul13 s.b15,
   mul13 s.b12 ^^^ mul9 s.b13 ^^^ mul14 s.b14 ^^^ mul11 s.b15,
   mul11 s.b12 ^^^ mul13 s.b13 ^^^ mul9 s.b14 ^^^ mul14 s.b15⟩


/-- All sixteen state bytes are below 256. -/
def Ok (s : St) : Prop :=
  s.b0 < 256 ∧ s.b1 < 256 ∧ s.b2 < 256 ∧ s.b3 < 256 ∧ s.b4 < 256 ∧ s.b5 < 256 ∧ s.b6 < 256 ∧ s.b7 < 256 ∧ s.b8 < 256 ∧ s.b9 < 256 ∧ s.b10 < 256 ∧ s.b11 < 256 ∧ s.b12 < 256 ∧ s.b13 < 256 ∧ s.b14 < 256 ∧ s.b15 < 256

theorem xorSt_ok {x y : St} (hx : Ok x) (hy : Ok y) : Ok (xorSt x y) := by
  obtain ⟨x0, x1, x2, x3, x4, x5, x6, x7, x8, x9, x10, x11, x12, x13, x14, x15⟩ := hx
  obtain ⟨y0, y1, y2, y3, y4, y5, y6, y7, y8, y9, y10, y11, y12, y13, y14, y15⟩ := hy
  exact ⟨xor_lt256 x0 y0, xor_lt256 x1 y1, xor_lt256 x2 y2, xor_lt256 x3 y3, xor_lt256 x4 y4, xor_lt256 x5 y5, xor_lt256 x6 y6, xor_lt256 x7 y7, xor_lt256 x8 y8, xor_lt256 x9 y9, xor_lt256 x10 y10, xor_lt256 x11 y11, xor_lt256 x12 y12, xor_lt256 x13 y13, xor_lt256 x14 y14, xor_lt256 x15 y15⟩

theorem subBytes_ok (s : St) : Ok (subBytes s) :=
  ⟨sbox_lt _, sbox_lt _, sbox_lt _, sbox_lt _, sbox_lt _, sbox_lt _, sbox_lt _, sbox_lt _, sbox_lt _, sbox_lt _, sbox_lt _, sbox_lt _, sbox_lt _, sbox_lt _, sbox_lt _, sbox_lt _⟩

theorem invSubBytes_ok (s : St) : Ok (invSubBytes s) :=
  ⟨invSbox_lt _, invSbox_lt _, invSbox_lt _, invSbox_lt _, invSbox_lt _, invSbox_lt _, invSbox_lt _, invSbox_lt _, invSbox_lt _, invSbox_lt _, invSbox_lt _, invSbox_lt _, invSbox_lt _, invSbox_lt _, invSbox_lt _, invSbox_lt _⟩

theorem shiftRows_ok {s : St} (h : Ok s) : Ok (shiftRows s) := by
  obtain ⟨h0, h1, h2, h3, h4, h5, h6, h7, h8, h9, h10, h11, h12, h13, h14, h15⟩ := h
  exact ⟨h0, h5, h10, h15, h4, h9, h14, h3, h8, h13, h2, h7, h12, h1, h6, h11⟩

theorem mixColumns_ok {s : St} (h : Ok s) : Ok (mixColumns s) := by
  obtain ⟨h0, h1, h2, h3, h4, h5, h6, h7, h8, h9, h10, h11, h12, h13, h14, h15⟩ := h
  exact ⟨(xor_lt256 (xor_lt256 (xor_lt256 (mul2_lt _) (mul3_lt h1)) h2) h3),
    (xor_lt256 (xor_lt256 (xor_lt256 h0 (mul2_lt _)) (mul3_lt h2)) h3),
    (xor_lt256 (xor_lt256 (xor_lt256 h0 h1) (mul2_lt _)) (mul3_lt h3)),
    (xor_lt256 (xor_lt256 (xor_lt256 (mul3_lt h0) h1) h2) (mul2_lt _)),
    (xor_lt256 (xor_lt256 (xor_lt256 (mul2_lt _) (mul3_lt h5)) h6) h7),
    (xor_lt256 (xor_lt256 (xor_lt256 h4 (mul2_lt _)) (mul3_lt h6)) h7),
    (xor_lt256 (xor_lt256 (xor_lt256 h4 h5) (mul2_lt _)) (mul3_lt h7)),
    (xor_lt256 (xor_lt256 (xor_lt256 (mul3_lt h4) h5) h6) (mul2_lt _)),
    (xor_lt256 (xor_lt256 (xor_lt256 (mul2_lt _) (mul3_lt h9)) h10) h11),
    (xor_lt256 (xor_lt256 (xor_lt256 h8 (mul2_lt _)) (mul3_lt h10)) h11),
    (xor_lt256 (xor_lt256 (xor_lt256 h8 h9) (mul2_lt _)) (mul3_lt h11)),
    (xor_lt256 (xor_lt256 (xor_lt256 (mul3_lt h8) h9) h10) (mul2_lt _)),
    (xor_lt256 (xor_lt256 (xor_lt256 (mul2_lt _) (mul3_lt h13)) h14) h15),
    (xor_lt256 (xor_lt256 (xor_lt256 h12 (mul2_lt _)) (mul3_lt h14)) h15),
    (xor_lt256 (xor_lt256 (xor_lt256 h12 h13) (mul2_lt _)) (mul3_lt h15)),
    (xor_lt256 (xor_lt256 (xor_lt256 (mul3_lt h12) h13) h14) (mul2_lt _))⟩

theorem invMixColumns_ok {s : St} (h : Ok s) : Ok (invMixColumns s) := by
  obtain ⟨h0, h1, h2, h3, h4, h5, h6, h7, h8, h9, h10, h11, h12, h13, h14, h15⟩ := h
  exact ⟨(xor_lt256 (xor_lt256 (xor_lt256 (mul14_lt _) (mul11_lt h1)) (mul13_lt h2)) (mul9_lt h3)),
    (xor_lt256 (xor_lt256 (xor_lt256 (mul9_lt h0) (mul14_lt _)) (mul11_lt h2)) (mul13_lt h3)),
    (xor_lt256 (xor_lt256 (xor_lt256 (mul13_lt h0) (mul9_lt h1)) (mul14_lt _)) (mul11_lt h3)),
    (xor_lt256 (xor_lt256 (xor_lt256 (mul11_lt h0) (mul13_lt h1)) (mul9_lt h2)) (mul14_lt _)),
    (xor_lt256 (xor_lt256 (xor_lt256 (mul14_lt _) (mul11_lt h5)) (mul13_lt h6)) (mul9_lt h7)),
    (xor_lt256 (xor_lt256 (xor_lt256 (mul9_lt h4) (mul14_lt _)) (mul11_lt h6)) (mul13_lt h7)),
    (xor_lt256 (xor_lt256 (xor_lt256 (mul13_lt h4) (mul9_lt h5)) (mul14_lt _)) (mul11_lt h7)),
    (xor_lt256 (xor_lt256 (xor_lt256 (mul11_lt h4) (mul13_lt h5)) (mul9_lt h6)) (mul14_lt _)),
    (xor_lt256 (xor_lt256 (xor_lt256 (mul14_lt _) (mul11_lt h9)) (mul13_lt h10)) (mul9_lt h11)),
    (xor_lt256 (xor_lt256 (xor_lt256 (mul9_lt h8) (mul14_lt _)) (mul11_lt h10)) (mul13_lt h11)),
    (xor_lt256 (xor_lt256 (xor_lt256 (mul13_lt h8) (mul9_lt h9)) (mul14_lt _)) (mul11_lt h11)),
    (xor_lt256 (xor_lt256 (xor_lt256 (mul11_lt h8) (mul13_lt h9)) (mul9_lt h10)) (mul14_lt _)),
    (xor_lt256 (xor_lt256 (xor_lt256 (mul14_lt _) (mul11_lt h13)) (mul13_lt h14)) (mul9_lt h15)),
    (xor_lt256 (xor_lt256 (xor_lt256 (mul9_lt h12) (mul14_lt _)) (mul11_lt h14)) (mul13_lt h15)),
    (xor_lt256 (xor_lt256 (xor_lt256 (mul13_lt h12) (mul9_lt h13)) (mul14_lt _)) (mul11_lt h15)),
    (xor_lt256 (xor_lt256 (xor_lt256 (mul11_lt h12) (mul13_lt h13)) (mul9_lt h14)) (mul14_lt _))⟩

theorem invShiftRows_shiftRows (s : St) : invShiftRows (shiftRows s) = s := rfl

theorem xorSt_cancel (x k : St) : xorSt (xorSt x k) k = x := by
  cases x with
  | mk x0 x1 x2 x3 x4 x5 x6 x7 x8 x9 x10 x11 x12 x13 x14 x15 =>
  cases k with
  | mk k0 k1 k2 k3 k4 k5 k6 k7 k8 k9 k10 k11 k12 k13 k14 k15 =>
  simp only [xorSt, St.mk.injEq]
  exact ⟨Nat.xor_cancel_right k0 x0, Nat.xor_cancel_right k1 x1, Nat.xor_cancel_right k2 x2, Nat.xor_cancel_right k3 x3, Nat.xor_cancel_right k4 x4, Nat.xor_cancel_right k5 x5, Nat.xor_cancel_right k6 x6, Nat.xor_cancel_right k7 x7, Nat.xor_cancel_right k8 x8, Nat.xor_cancel_right k9 x9, Nat.xor_cancel_right k10 x10, Nat.xor_cancel_right k11 x11, Nat.xor_cancel_right k12 x12, Nat.xor_cancel_right k13 x13, Nat.xor_cancel_right k14 x14, Nat.xor_cancel_right k15 x15⟩

theorem invSubBytes_subBytes {s : St} (h : Ok s) : invSubBytes (subBytes s) = s := by
  cases s with
  | mk b0 b1 b2 b3 b4 b5 b6 b7 b8 b9 b10 b11 b12 b13 b14 b15 =>
  obtain ⟨h0, h1, h2, h3, h4, h5, h6, h7, h8, h9, h10, h11, h12, h13, h14, h15⟩ := h
  simp only [subBytes, invSubBytes, St.mk.injEq]
  exact ⟨invSbox_sbox h0, invSbox_sbox h1, invSbox_sbox h2, invSbox_sbox h3, invSbox_sbox h4, invSbox_sbox h5, invSbox_sbox h6, invSbox_sbox h7, invSbox_sbox h8, invSbox_sbox h9, invSbox_sbox h10, invSbox_sbox h11, invSbox_sbox h12, invSbox_sbox h13, invSbox_sbox h14, invSbox_sbox h15⟩

theorem invMix_mix {s : St} (h : Ok s) : invMixColumns (mixColumns s) = s := by
  cases s with
  | mk b0 b1 b2 b3 b4 b5 b6 b7 b8 b9 b10 b11 b12 b13 b14 b15 =>
  obtain ⟨h0, h1, h2, h3, h4, h5, h6, h7, h8, h9, h10, h11, h12, h13, h14, h15⟩ := h
  simp only [mixColumns, invMixColumns, St.mk.injEq]
  exact ⟨colInv0 b0 b1 b2 b3 h0 h1 h2 h3,
    colInv1 b0 b1 b2 b3 h0 h1 h2 h3,
    colInv2 b0 b1 b2 b3 h0 h1 h2 h3,
    colInv3 b0 b1 b2 b3 h0 h1 h2 h3,
    colInv0 b4 b5 b6 b7 h4 h5 h6 h7,
    colInv1 b4 b5 b6 b7 h4 h5 h6 h7,
    colInv2 b4 b5 b6 b7 h4 h5 h6 h7,
    colInv3 b4 b5 b6 b7 h4 h5 h6 h7,
    colInv0 b8 b9 b10 b11 h8 h9 h10 h11,
    colInv1 b8 b9 b10 b11 h8 h9 h10 h11,
    colInv2 b8 b9 b10 b11 h8 h9 h10 h11,
    colInv3 b8 b9 b10 b11 h8 h9 h10 h11,
    colInv0 b12 b13 b14 b15 h12 h13 h14 h15,
    colInv1 b12 b13 b14 b15 h12 h13 h14 h15,
    colInv2 b12 b13 b14 b15 h12 h13 h14 h15,
    colInv3 b12 b13 b14 b15 h12 h13 h14 h15⟩


/-- One AES-128 key-schedule step (from round key i to i+1). -/
def nextKey (k : St) (rc : Nat) : St :=
  let t0 := sbox k.b13
  let t1 := sbox k.b14
  let t2 := sbox k.b15
  let t3 := sbox k.b12
  let w00 := k.b0 ^^^ t0 ^^^ rc
  let w01 := k.b1 ^^^ t1
  let w02 := k.b2 ^^^ t2
  let w03 := k.b3 ^^^ t3
  let w10 := k.b4 ^^^ w00
  let w11 := k.b5 ^^^ w01
  let w12 := k.b6 ^^^ w02
  let w13 := k.b7 ^^^ w03
  let w20 := k.b8 ^^^ w10
  let w21 := k.b9 ^^^ w11
  let w22 := k.b10 ^^^ w12
  let w23 := k.b11 ^^^ w13
  let w30 := k.b12 ^^^ w20
  let w31 := k.b13 ^^^ w21
  let w32 := k.b14 ^^^ w22
  let w33 := k.b15 ^^^ w23
  ⟨w00, w01, w02, w03, w10, w11, w12, w13, w20, w21, w22, w23, w30, w31, w32, w33⟩

/-- The eleven AES-128 round keys. -/
structure RoundKeys where

  k0 : St
  k1 : St
  k2 : St
  k3 : St
  k4 : St
  k5 : St
  k6 : St
  k7 : St
  k8 : St
  k9 : St
  k10 : St
deriving DecidableEq, Repr

/-- AES-128 key expansion with the round constants 1,2,4,...,0x36. -/
def expandKey (k : St) : RoundKeys :=
  let k1 := nextKey k 1
  let k2 := nextKey k1 2
  let k3 := nextKey k2 4
  let k4 := nextKey k3 8
  let k5 := nextKey k4 16
  let k6 := nextKey k5 32
  let k7 := nextKey k6 64
  let k8 := nextKey k7 128
  let k9 := nextKey k8 27
  let k10 := nextKey k9 54
  ⟨k, k1, k2, k3, k4, k5, k6, k7, k8, k9, k10⟩

def encRound (k s : St) : St := xorSt (mixColumns (shiftRows (subBytes s))) k

def decRound (k s : St) : St := invSubBytes (invShiftRows (invMixColumns (xorSt s k)))

def encryptBlock (rk : RoundKeys) (s : St) : St :=
  xorSt (shiftRows (subBytes
    (encRound rk.k9 (encRound rk.k8 (encRound rk.k7 (encRound rk.k6 (encRound rk.k5
      (encRound rk.k4 (encRound rk.k3 (encRound rk.k2 (encRound rk.k1
        (xorSt s rk.k0)))))))))))) rk.k10

def decryptBlock (rk : RoundKeys) (c : St) : St :=
  xorSt
    (decRound rk.k1 (decRound rk.k2 (decRound rk.k3 (decRound rk.k4 (decRound rk.k5
      (decRound rk.k6 (decRound rk.k7 (decRound rk.k8 (decRound rk.k9
        (invSubBytes (invShiftRows (xorSt c rk.k10))))))))))))
    rk.k0

/-- All round keys are byte-bounded. -/
def OkK (rk : RoundKeys) : Prop :=
  Ok rk.k0 ∧ Ok rk.k1 ∧ Ok rk.k2 ∧ Ok rk.k3 ∧ Ok rk.k4 ∧ Ok rk.k5 ∧ Ok rk.k6 ∧ Ok rk.k7 ∧ Ok rk.k8 ∧ Ok rk.k9 ∧ Ok rk.k10

theorem nextKey_ok {k : St} (h : Ok k) (rc : Nat) (hrc : rc < 256) :
    Ok (nextKey k rc) := by
  obtain ⟨h0, h1, h2, h3, h4, h5, h6, h7, h8, h9, h10, h11, h12, h13, h14, h15⟩ := h
  exact ⟨xor_lt256 (xor_lt256 h0 (sbox_lt _)) hrc,
    xor_lt256 h1 (sbox_lt _),
    xor_lt256 h2 (sbox_lt _),
    xor_lt256 h3 (sbox_lt _),
    xor_lt256 h4 (xor_lt256 (xor_lt256 h0 (sbox_lt _)) hrc),
    xor_lt256 h5 (xor_lt256 h1 (sbox_lt _)),
    xor_lt256 h6 (xor_lt256 h2 (sbox_lt _)),
    xor_lt256 h7 (xor_lt256 h3 (sbox_lt _)),
    xor_lt256 h8 (xor_lt256 h4 (xor_lt256 (xor_lt256 h0 (sbox_lt _)) hrc)),
    xor_lt256 h9 (xor_lt256 h5 (xor_lt256 h1 (sbox_lt _))),
    xor_lt256 h10 (xor_lt256 h6 (xor_lt256 h2 (sbox_lt _))),
    xor_lt256 h11 (xor_lt256 h7 (xor_lt256 h3 (sbox_lt _))),
    xor_lt256 h12 (xor_lt256 h8 (xor_lt256 h4 (xor_lt256 (xor_lt256 h0 (sbox_lt _)) hrc))),
    xor_lt256 h13 (xor_lt256 h9 (xor_lt256 h5 (xor_lt256 h1 (sbox_lt _)))),
    xor_lt256 h14 (xor_lt256 h10 (xor_lt256 h6 (xor_lt256 h2 (sbox_lt _)))),
    xor_lt256 h15 (xor_lt256 h11 (xor_lt256 h7 (xor_lt256 h3 (sbox_lt _))))⟩

theorem expandKey_ok {k : St} (h : Ok k) : OkK (expandKey k) := by
  refine ⟨h, ?_, ?_, ?_, ?_, ?_, ?_, ?_, ?_, ?_, ?_⟩ <;>
    first
      | exact nextKey_ok h 1 (by norm_num)
      | (repeat
          first
            | exact nextKey_ok h 1 (by norm_num)
            | refine nextKey_ok ?_ _ (by norm_num))

theorem encRound_ok {k s : St} (hk : Ok k) (_hs : Ok s) : Ok (encRound k s) :=
  xorSt_ok (mixColumns_ok (shiftRows_ok (subBytes_ok s))) hk

theorem decRound_encRound {k s : St} (hs : Ok s) : decRound k (encRound k s) = s := by
  unfold decRound encRound
  rw [xorSt_cancel, invMix_mix (shiftRows_ok (subBytes_ok s)), invShiftRows_shiftRows,
    invSubBytes_subBytes hs]

theorem encryptBlock_ok {rk : RoundKeys} (hk : OkK rk) (s : St) :
    Ok (encryptBlock rk s) := by
  obtain ⟨hk0, hk1, hk2, hk3, hk4, hk5, hk6, hk7, hk8, hk9, hk10⟩ := hk
  exact xorSt_ok (shiftRows_ok (subBytes_ok _)) hk10

/-- AES-128 block decryption inverts encryption on byte-bounded states. -/
theorem decryptBlock_encryptBlock (rk : RoundKeys) (hk : OkK rk) (s : St) (hs : Ok s) :
    decryptBlock rk (encryptBlock rk s) = s := by
  obtain ⟨hk0, hk1, hk2, hk3, hk4, hk5, hk6, hk7, hk8, hk9, hk10⟩ := hk
  have o0 : Ok (xorSt s rk.k0) := xorSt_ok hs hk0
  have o1 := encRound_ok hk1 o0
  have o2 := encRound_ok hk2 o1
  have o3 := encRound_ok hk3 o2
  have o4 := encRound_ok hk4 o3
  have o5 := encRound_ok hk5 o4
  have o6 := encRound_ok hk6 o5
  have o7 := encRound_ok hk7 o6
  have o8 := encRound_ok hk8 o7
  have o9 := encRound_ok hk9 o8
  unfold encryptBlock decryptBlock
  rw [xorSt_cancel, invShiftRows_shiftRows, invSubBytes_subBytes o9,
    decRound_encRound o8, decRound_encRound o7, decRound_encRound o6,
    decRound_encRound o5, decRound_encRound o4, decRound_encRound o3,
    decRound_encRound o2, decRound_encRound o1, decRound_encRound o0,
    xorSt_cancel]


/-! ### Byte-list interface, CBC chaining and PKCS7 padding -/

def stOfList (l : List Nat) : St :=
  ⟨l.getD 0 0, l.getD 1 0, l.getD 2 0, l.getD 3 0, l.getD 4 0, l.getD 5 0, l.getD 6 0, l.getD 7 0, l.getD 8 0, l.getD 9 0, l.getD 10 0, l.getD 11 0, l.getD 12 0, l.getD 13 0, l.getD 14 0, l.getD 15 0⟩

def listOfSt (s : St) : List Nat :=
  [s.b0, s.b1, s.b2, s.b3, s.b4, s.b5, s.b6, s.b7, s.b8, s.b9, s.b10, s.b11, s.b12, s.b13, s.b14, s.b15]

theorem listOfSt_length (s : St) : (listOfSt s).length = 16 := rfl

theorem stOfList_ok (l : List Nat) (hl : ∀ x ∈ l, x < 256) : Ok (stOfList l) :=
  ⟨getD_lt l hl 0 0 (by norm_num), getD_lt l hl 1 0 (by norm_num), getD_lt l hl 2 0 (by norm_num), getD_lt l hl 3 0 (by norm_num), getD_lt l hl 4 0 (by norm_num), getD_lt l hl 5 0 (by norm_num), getD_lt l hl 6 0 (by norm_num), getD_lt l hl 7 0 (by norm_num), getD_lt l hl 8 0 (by norm_num), getD_lt l hl 9 0 (by norm_num), getD_lt l hl 10 0 (by norm_num), getD_lt l hl 11 0 (by norm_num), getD_lt l hl 12 0 (by norm_num), getD_lt l hl 13 0 (by norm_num), getD_lt l hl 14 0 (by norm_num), getD_lt l hl 15 0 (by norm_num)⟩

theorem stOfList_listOfSt (s : St) : stOfList (listOfSt s) = s := rfl

theorem listOfSt_stOfList : ∀ l : List Nat, l.length = 16 → listOfSt (stOfList l) = l := by
  intro l h
  rcases l with _ | ⟨a0, l⟩
  · simp at h
  rcases l with _ | ⟨a1, l⟩
  · simp at h
  rcases l with _ | ⟨a2, l⟩
  · simp at h
  rcases l with _ | ⟨a3, l⟩
  · simp at h
  rcases l with _ | ⟨a4, l⟩
  · simp at h
  rcases l with _ | ⟨a5, l⟩
  · simp at h
  rcases l with _ | ⟨a6, l⟩
  · simp at h
  rcases l with _ | ⟨a7, l⟩
  · simp at h
  rcases l with _ | ⟨a8, l⟩
  · simp at h
  rcases l with _ | ⟨a9, l⟩
  · simp at h
  rcases l with _ | ⟨a10, l⟩
  · simp at h
  rcases l with _ | ⟨a11, l⟩
  · simp at h
  rcases l with _ | ⟨a12, l⟩
  · simp at h
  rcases l with _ | ⟨a13, l⟩
  · simp at h
  rcases l with _ | ⟨a14, l⟩
  · simp at h
  rcases l with _ | ⟨a15, l⟩
  · simp at h
  rcases l with _ | ⟨a16, l⟩
  · rfl
  · simp at h


/-- Split a byte list into 16-byte cipher blocks (any incomplete tail is
ignored; callers only pass multiples of 16). -/
def toBlocks (l : List Nat) : List St :=
  if 16 <= l.length then stOfList (l.take 16) :: toBlocks (l.drop 16) else []
termination_by l.length
decreasing_by
  simp only [List.length_drop]
  omega

def fromBlocks : List St → List Nat
  | [] => []
  | s :: rest => listOfSt s ++ fromBlocks rest

theorem toBlocks_pos (l : List Nat) (h : 16 <= l.length) :
    toBlocks l = stOfList (l.take 16) :: toBlocks (l.drop 16) := by
  conv_lhs => unfold toBlocks
  simp [h]

theorem toBlocks_neg (l : List Nat) (h : ¬ 16 <= l.length) : toBlocks l = [] := by
  conv_lhs => unfold toBlocks
  simp [h]

theorem fromBlocks_length : ∀ bs : List St, (fromBlocks bs).length = 16 * bs.length := by
  intro bs
  induction bs with
  | nil => rfl
  | cons s rest ih =>
    simp only [fromBlocks, List.length_append, listOfSt_length, ih, List.length_cons]
    ring

theorem toBlocks_fromBlocks : ∀ bs : List St, toBlocks (fromBlocks bs) = bs := by
  intro bs
  induction bs with
  | nil => exact toBlocks_neg [] (by simp [fromBlocks])
  | cons s rest ih =>
    have hlen : 16 <= (fromBlocks (s :: rest)).length := by
      rw [fromBlocks_length]
      simp only [List.length_cons]
      omega
    rw [toBlocks_pos _ hlen]
    have h16 : (16 : Nat) = (listOfSt s).length := (listOfSt_length s).symm
    simp only [fromBlocks]
    rw [h16, List.take_left, List.drop_left, stOfList_listOfSt, ih]

theorem fromBlocks_toBlocks : ∀ n l, l.length = n → l.length % 16 = 0 →
    fromBlocks (toBlocks l) = l := by
  intro n
  induction n using Nat.strong_induction_on with
  | _ n ih =>
    intro l hlen hmod
    by_cases h16 : 16 <= l.length
    · rw [toBlocks_pos _ h16]
      have htk : (l.take 16).length = 16 := by
        simp [List.length_take]
        omega
      have hrec : fromBlocks (toBlocks (l.drop 16)) = l.drop 16 := by
        refine ih (l.drop 16).length ?_ _ rfl ?_
        · simp only [List.length_drop]
          omega
        · simp only [List.length_drop]
          omega
      simp only [fromBlocks]
      rw [listOfSt_stOfList _ htk, hrec, List.take_append_drop]
    · have hz : l.length = 0 := by omega
      have : l = [] := List.eq_nil_of_length_eq_zero hz
      subst this
      rw [toBlocks_neg _ (by simp)]
      rfl

theorem toBlocks_all_ok : ∀ n l, l.length = n → (∀ x ∈ l, x < 256) →
    ∀ s ∈ toBlocks l, Ok s := by
  intro n
  induction n using Nat.strong_induction_on with
  | _ n ih =>
    intro l hlen hl s hs
    by_cases h16 : 16 <= l.length
    · rw [toBlocks_pos _ h16] at hs
      rw [List.mem_cons] at hs
      rcases hs with hs | hs
      · subst hs
        exact stOfList_ok _ (fun x hx => hl x (List.mem_of_mem_take hx))
      · refine ih (l.drop 16).length ?_ _ rfl (fun x hx => hl x (List.mem_of_mem_drop hx)) s hs
        simp only [List.length_drop]
        omega
    · rw [toBlocks_neg _ h16] at hs
      simp at hs

/-- CBC encryption: each ciphertext block chains into the next. -/
def cbcEnc (rk : RoundKeys) (prev : St) : List St → List St
  | [] => []
  | b :: bs =>
    let c := encryptBlock rk (xorSt b prev)
    c :: cbcEnc rk c bs

/-- CBC decryption. -/
def cbcDec (rk : RoundKeys) (prev : St) : List St → List St
  | [] => []
  | c :: cs => xorSt (decryptBlock rk c) prev :: cbcDec rk c cs

theorem cbcDec_cbcEnc (rk : RoundKeys) (hk : OkK rk) :
    ∀ (bs : List St) (prev : St), Ok prev → (∀ b ∈ bs, Ok b) →
      cbcDec rk prev (cbcEnc rk prev bs) = bs := by
  intro bs
  induction bs with
  | nil => intro prev _ _; rfl
  | cons b bs ih =>
    intro prev hprev hbs
    have hb : Ok b := hbs b (by simp)
    simp only [cbcEnc, cbcDec]
    rw [decryptBlock_encryptBlock rk hk _ (xorSt_ok hb hprev), xorSt_cancel,
      ih (encryptBlock rk (xorSt b prev)) (encryptBlock_ok hk _)
        (fun x hx => hbs x (by simp [hx]))]

/-- PKCS7 padding to the 16-byte block size. -/
def pkcs7pad (l : List Nat) : List Nat :=
  let k := 16 - l.length % 16
  l ++ List.replicate k k

/-- PKCS7 unpadding with full padding verification. -/
def pkcs7unpad (l : List Nat) : Except Unit (List Nat) :=
  match l.getLast? with
  | none => .error ()
  | some k =>
    if k = 0 ∨ 16 < k ∨ l.length < k then .error ()
    else if (l.drop (l.length - k)).all (fun x => x = k) then .ok (l.take (l.length - k))
    else .error ()

theorem pkcs7pad_mod (l : List Nat) : (pkcs7pad l).length % 16 = 0 := by
  simp only [pkcs7pad, List.length_append, List.length_replicate]
  omega

theorem pkcs7pad_all_lt (l : List Nat) (hl : ∀ x ∈ l, x < 256) :
    ∀ x ∈ pkcs7pad l, x < 256 := by
  intro x hx
  simp only [pkcs7pad, List.mem_append] at hx
  rcases hx with hx | hx
  · exact hl x hx
  · have := List.mem_replicate.mp hx
    omega

theorem pkcs7unpad_pad (l : List Nat) : pkcs7unpad (pkcs7pad l) = .ok l := by
  have hkpos : 1 <= 16 - l.length % 16 := by omega
  have hklt : 16 - l.length % 16 <= 16 := by omega
  have hlast : (pkcs7pad l).getLast? = some (16 - l.length % 16) := by
    simp only [pkcs7pad]
    rw [List.getLast?_append, List.getLast?_replicate, if_neg (by omega)]
    rfl
  have hlen : (pkcs7pad l).length = l.length + (16 - l.length % 16) := by
    simp [pkcs7pad]
  unfold pkcs7unpad
  rw [hlast]
  dsimp only
  rw [if_neg (by omega)]
  have hsub : (pkcs7pad l).length - (16 - l.length % 16) = l.length := by omega
  rw [hsub]
  have hdrop : (pkcs7pad l).drop l.length = List.replicate (16 - l.length % 16) (16 - l.length % 16) := by
    simp only [pkcs7pad]
    conv_lhs => rw [show l.length = l.length from rfl]
    exact List.drop_left l _
  have htake : (pkcs7pad l).take l.length = l := by
    simp only [pkcs7pad]
    exact List.take_left l _
  rw [hdrop, htake]
  simp [List.all_eq_true, List.mem_replicate]

/-- The result of CBC-PKCS7 decryption: a plaintext, an unpadding error
(block_padding UnpadError), or a Rust panic. -/
inductive DecryptResult where
  | ok (pt : List Nat)
  | unpadError
  | panics
deriving DecidableEq, Repr

/-- Model of encrypt from
src/secret_service/dbus/crypto/rust_crypto/std.rs: the freshly drawn
16-byte IV is passed explicitly and returned beside the ciphertext. -/
def encrypt (data key iv : List Nat) : List Nat × List Nat :=
  (fromBlocks (cbcEnc (expandKey (stOfList key)) (stOfList iv) (toBlocks (pkcs7pad data))), iv)

/-- Model of decrypt from the same module. GenericArray::from_slice
panics when the key or IV slice is not exactly 16 bytes; a ciphertext
that is not a whole number of blocks, or bad padding, is the
UnpadError. -/
def decrypt (ct key iv : List Nat) : DecryptResult :=
  if key.length ≠ 16 then .panics
  else if iv.length ≠ 16 then .panics
  else if ct.length % 16 ≠ 0 then .unpadError
  else
    match pkcs7unpad (fromBlocks (cbcDec (expandKey (stOfList key)) (stOfList iv) (toBlocks ct))) with
    | .ok pt => .ok pt
    | .error _ => .unpadError

theorem decrypt_empty_iv (ct key : List Nat) : decrypt ct key [] = .panics := by
  unfold decrypt
  by_cases h : key.length = 16 <;> simp [h]

end Aes



/-! ## The rust-crypto engine driver
(src/secret_service/dbus/crypto/rust_crypto/std.rs) -/

namespace Crypto

/-- The crypto error enum (src/secret_service/crypto/error.rs). -/
inductive CryptoError where
  | EncryptUndefinedSecretError
  | EncryptSecretMissingKeyError
  | DecryptUndefinedSecretError
  | DecryptSecretMissingKeyError
  | DecryptSecretRustCryptoError
deriving DecidableEq, Repr

/-- The flow state seen through the crypto Flow capabilities. -/
structure CFlow where
  secret : Option (List Nat)
  salt : Option (List Nat)
deriving DecidableEq, Repr

/-- The rust-crypto IoConnector: session path plus the optional derived
AES key. -/
structure IoConnectorRC where
  session_path : String
  shared_key : Option (List Nat)
deriving DecidableEq, Repr

/-- Outcome of one crypto engine operation: the updated flow, a
returned error, or a Rust panic. -/
inductive CryptoOutcome where
  | ok (flow : CFlow)
  | err (e : CryptoError)
  | panics
deriving DecidableEq, Repr

/-- IoConnector::encrypt: take the plaintext (error if absent), require
the shared key, run AES-CBC-PKCS7 with the freshly drawn IV, give the
ciphertext back as the secret and the IV as the salt. -/
def ioEncrypt (conn : IoConnectorRC) (flow : CFlow) (iv : List Nat) : CryptoOutcome :=
  match flow.secret with
  | none => .err CryptoError.EncryptUndefinedSecretError
  | some secret =>
    match conn.shared_key with
    | none => .err CryptoError.EncryptSecretMissingKeyError
    | some key =>
      let res := Aes.encrypt secret key iv
      .ok ⟨some res.1, some res.2⟩

/-- IoConnector::decrypt: take the ciphertext (error if absent), require
the shared key, default the salt to the empty list, run CBC-PKCS7
decryption. -/
def ioDecrypt (conn : IoConnectorRC) (flow : CFlow) : CryptoOutcome :=
  match flow.secret with
  | none => .err CryptoError.DecryptUndefinedSecretError
  | some secret =>
    match conn.shared_key with
    | none => .err CryptoError.DecryptSecretMissingKeyError
    | some key =>
      let salt := flow.salt.getD []
      match Aes.decrypt secret key salt with
      | .ok pt => .ok ⟨some pt, none⟩
      | .unpadError => .err CryptoError.DecryptSecretRustCryptoError
      | .panics => .panics

end Crypto

/-- C7: AES-128-CBC-PKCS7 round trip: for every plaintext, 16-byte key
and the 16-byte IV drawn by encrypt, decrypting the produced ciphertext
with that key and IV succeeds and returns exactly the plaintext; encrypt
returns the IV it drew unchanged. -/
theorem claim_C7_encrypt_decrypt_roundtrip (data key iv : List Nat)
    (hkeyLen : key.length = 16) (hivLen : iv.length = 16)
    (hdata : ∀ b ∈ data, b < 256) (hkey : ∀ b ∈ key, b < 256)
    (hiv : ∀ b ∈ iv, b < 256) :
    Aes.decrypt (Aes.encrypt data key iv).1 key iv = .ok data ∧
    (Aes.encrypt data key iv).2 = iv := by
  refine ⟨?_, rfl⟩
  have hrk : Aes.OkK (Aes.expandKey (Aes.stOfList key)) :=
    Aes.expandKey_ok (Aes.stOfList_ok key hkey)
  have hivOk : Aes.Ok (Aes.stOfList iv) := Aes.stOfList_ok iv hiv
  have hblocks : ∀ s ∈ Aes.toBlocks (Aes.pkcs7pad data), Aes.Ok s :=
    Aes.toBlocks_all_ok (Aes.pkcs7pad data).length _ rfl (Aes.pkcs7pad_all_lt data hdata)
  unfold Aes.decrypt
  rw [if_neg (by omega), if_neg (by omega),
    if_neg (by simp only [Aes.encrypt, Aes.fromBlocks_length]; omega)]
  simp only [Aes.encrypt]
  rw [Aes.toBlocks_fromBlocks,
    Aes.cbcDec_cbcEnc _ hrk _ _ hivOk hblocks,
    Aes.fromBlocks_toBlocks (Aes.pkcs7pad data).length _ rfl (Aes.pkcs7pad_mod data),
    Aes.pkcs7unpad_pad]

/-- Witness for C7: the round trip at the plaintext "hi" with a concrete
key and IV. -/
theorem claim_C7_witness :
    Aes.decrypt
        (Aes.encrypt [104, 105] [0, 1, 2, 3, 4, 5, 6, 7, 8, 9, 10, 11, 12, 13, 14, 15]
          [5, 5, 5, 5, 5, 5, 5, 5, 5, 5, 5, 5, 5, 5, 5, 5]).1
        [0, 1, 2, 3, 4, 5, 6, 7, 8, 9, 10, 11, 12, 13, 14, 15]
        [5, 5, 5, 5, 5, 5, 5, 5, 5, 5, 5, 5, 5, 5, 5, 5] = .ok [104, 105] :=
  (claim_C7_encrypt_decrypt_roundtrip [104, 105]
    [0, 1, 2, 3, 4, 5, 6, 7, 8, 9, 10, 11, 12, 13, 14, 15]
    [5, 5, 5, 5, 5, 5, 5, 5, 5, 5, 5, 5, 5, 5, 5, 5]
    (by decide) (by decide) (by decide) (by decide) (by decide)).1

/-- C8 counterexample: with a present ciphertext and shared key but an
absent salt, the engine defaults the IV to the empty byte list and
GenericArray::from_slice then panics: the outcome is a crash, not the
returned decryption error the claim describes. -/
theorem claim_C8_counterexample :
    Crypto.ioDecrypt ⟨"/session", some [0, 1, 2, 3, 4, 5, 6, 7, 8, 9, 10, 11, 12, 13, 14, 15]⟩
        ⟨some [1], none⟩ = .panics ∧
    Crypto.ioDecrypt ⟨"/session", some [0, 1, 2, 3, 4, 5, 6, 7, 8, 9, 10, 11, 12, 13, 14, 15]⟩
        ⟨some [1], none⟩ ≠
      .err Crypto.CryptoError.DecryptSecretRustCryptoError := by
  refine ⟨?_, ?_⟩ <;> decide

/-- C8 amended: for every flow whose salt is absent but whose ciphertext
and shared key are present, decrypt defaults the IV to the empty byte
sequence and then panics (GenericArray::from_slice rejects the
zero-length IV) for every ciphertext payload; it never succeeds nor
returns an error in that configuration. -/
theorem claim_C8_amended_empty_iv_panics (conn : Crypto.IoConnectorRC)
    (flow : Crypto.CFlow) (ct key : List Nat)
    (hsec : flow.secret = some ct) (hkey : conn.shared_key = some key)
    (hsalt : flow.salt = none) :
    Crypto.ioDecrypt conn flow = .panics := by
  unfold Crypto.ioDecrypt
  rw [hsec, hkey, hsalt]
  dsimp only
  rw [show (none : Option (List Nat)).getD [] = [] from rfl, Aes.decrypt_empty_iv]

/-- Witness for the C8 amended theorem at a concrete connector and flow. -/
theorem claim_C8_amended_witness :
    Crypto.ioDecrypt ⟨"/session", some (List.replicate 16 7)⟩ ⟨some [9, 9, 9], none⟩ =
      .panics :=
  claim_C8_amended_empty_iv_panics ⟨"/session", some (List.replicate 16 7)⟩
    ⟨some [9, 9, 9], none⟩ [9, 9, 9] (List.replicate 16 7) rfl rfl rfl

end Keyring
